import Mathlib

/-!
# MIDI looper (`src/app.js`): loop recording and scheduled playback

A shallow embedding of the session engine of `src/app.js`.

* JavaScript numbers holding times are rationals (`ℚ`); `%` is `jsMod`, the
  remainder of truncated division, whose sign follows the dividend, which is
  exact on binary64 numbers.
* `stopNote` computes the duration exactly; `stopNoteF64` is the same function
  with each subtraction and addition rounded to binary64 by `f64Round` and the
  literals `0.05` and `0.1` read as binary64 numbers.
* The module-level `let` variables of the source are the fields of `State`.
* `Tone.Transport` is carried as the record `Transport`: its run state, the
  loop settings assigned by `startPlayback`, and the timeline of callbacks
  registered with `schedule` and removed with `clear`.  The value of
  `Tone.Transport.seconds` read by `playNote` and `stopNote` is an argument
  `now` of those operations.
* Calls into the sound layer are appended to the log `State.sound`.
* `async` functions are run to completion; whether `Tone.start()` resolves is
  the argument `gate` of the operations that reach `startAudioContext`.
* DOM updates (button classes, progress bar, bar counter) do not touch the
  session state and are left out.
-/

namespace MidiLooper

/-! ## Configuration -/

/-- Source: `const LOOP_DURATION = 8`. -/
def LOOP_DURATION : ℚ := 8

/-- Source: `const BPM = 120`. -/
def BPM : ℚ := 120

/-- JavaScript `a % b` on numbers: `a - b * trunc(a / b)`. -/
def jsMod (a b : ℚ) : ℚ :=
  a - b * ((if 0 ≤ a / b then Int.floor (a / b) else Int.ceil (a / b) : ℤ) : ℚ)

/-! ## Data model -/

/-- One element of `recordedNotes`: `{ note, time, duration, preset }`. -/
structure NoteEvent where
  note : String
  time : ℚ
  duration : ℚ
  preset : String
  deriving DecidableEq, Repr

/-- The `activeNotes` map (`note ↦ { startTime }`), in insertion order. -/
abbrev ActiveNotes := List (String × ℚ)

namespace ActiveNotes

/-- `Map.prototype.has`. -/
def has (m : ActiveNotes) (k : String) : Bool :=
  m.any (fun e => e.1 == k)

/-- `Map.prototype.get`. -/
def get (m : ActiveNotes) (k : String) : Option ℚ :=
  (m.find? (fun e => e.1 == k)).map (fun e => e.2)

/-- `Map.prototype.set`: an existing key keeps its position. -/
def set (m : ActiveNotes) (k : String) (v : ℚ) : ActiveNotes :=
  if has m k then m.map (fun e => if e.1 == k then (k, v) else e) else m ++ [(k, v)]

/-- `Map.prototype.delete`. -/
def delete (m : ActiveNotes) (k : String) : ActiveNotes :=
  m.filter (fun e => e.1 != k)

end ActiveNotes

/-- The two melodic instruments. -/
inductive Instrument where
  | pianoSynth
  | leadSynth
  deriving DecidableEq, Repr

/-- One entry of the `drumSynths` table. -/
structure Drum where
  synth : String
  note : Option String
  duration : String
  isNoise : Bool
  isMetal : Bool
  deriving DecidableEq, Repr

/-- The `drumSynths` table built by `initDrumSynths`; a missing `note`,
`isNoise` or `isMetal` property is `none`, `false`, `false`. -/
def drumSynths : String → Option Drum
  | "C3" => some ⟨"kick", some "C1", "8n", false, false⟩
  | "C#3" => some ⟨"snare", none, "16n", true, false⟩
  | "D3" => some ⟨"hihatClosed", none, "32n", true, false⟩
  | "D#3" => some ⟨"hihatOpen", none, "8n", true, false⟩
  | "E3" => some ⟨"tomLow", some "G2", "8n", false, false⟩
  | "F3" => some ⟨"tomMid", some "C3", "8n", false, false⟩
  | "F#3" => some ⟨"tomHigh", some "E3", "8n", false, false⟩
  | "G3" => some ⟨"crash", none, "2n", true, false⟩
  | "G#3" => some ⟨"ride", none, "4n", false, true⟩
  | "A3" => some ⟨"clap", none, "16n", true, false⟩
  | "A#3" => some ⟨"rim", none, "16n", false, true⟩
  | "B3" => some ⟨"cowbell", some "G5", "8n", false, true⟩
  | "C4" => some ⟨"kick", some "C1", "8n", false, false⟩
  | "C#4" => some ⟨"snare", none, "16n", true, false⟩
  | "D4" => some ⟨"hihatClosed", none, "32n", true, false⟩
  | "D#4" => some ⟨"hihatOpen", none, "8n", true, false⟩
  | "E4" => some ⟨"tomLow", some "G2", "8n", false, false⟩
  | "F4" => some ⟨"tomMid", some "C3", "8n", false, false⟩
  | "F#4" => some ⟨"tomHigh", some "E3", "8n", false, false⟩
  | "G4" => some ⟨"crash", none, "2n", true, false⟩
  | "G#4" => some ⟨"ride", none, "4n", false, true⟩
  | "A4" => some ⟨"clap", none, "16n", true, false⟩
  | "A#4" => some ⟨"rim", none, "16n", false, true⟩
  | "B4" => some ⟨"cowbell", some "G5", "8n", false, true⟩
  | _ => none

/-- A call into the sound layer.  `time` is `none` for live input. -/
inductive SoundCmd where
  | triggerAttack (inst : Instrument) (note : String)
  | triggerRelease (inst : Instrument) (note : String)
  | triggerAttackRelease (inst : Instrument) (note : String) (duration : ℚ) (time : ℚ)
  | drumAttackRelease (synth : String) (note : Option String) (duration : String)
      (time : Option ℚ)
  | releaseAll (inst : Instrument)
  deriving DecidableEq, Repr

/-- A callback registered on the transport timeline by `scheduleLoop`; the
closure captures `noteData`. -/
structure TransportEvent where
  id : Nat
  time : ℚ
  noteData : NoteEvent
  deriving DecidableEq, Repr

/-- The part of `Tone.Transport` the session touches. -/
structure Transport where
  started : Bool
  loop : Bool
  loopStart : ℚ
  loopEnd : ℚ
  bpm : ℚ
  events : List TransportEvent
  nextId : Nat
  deriving DecidableEq, Repr

namespace Transport

/-- `Tone.Transport.schedule(callback, time)`: registers the callback and
returns its fresh id. -/
def schedule (tr : Transport) (noteData : NoteEvent) (time : ℚ) : Nat × Transport :=
  (tr.nextId,
    { tr with events := tr.events ++ [⟨tr.nextId, time, noteData⟩], nextId := tr.nextId + 1 })

/-- `Tone.Transport.clear(id)`: removes the registration with that id. -/
def clear (tr : Transport) (id : Nat) : Transport :=
  { tr with events := tr.events.filter (fun e => e.id != id) }

/-- The ids currently registered on the timeline. -/
def ids (tr : Transport) : List Nat :=
  tr.events.map (fun e => e.id)

end Transport

/-- The module state of `app.js`. -/
structure State where
  isRecording : Bool
  isPlaying : Bool
  recordedNotes : List NoteEvent
  currentPreset : String
  activeNotes : ActiveNotes
  scheduledEvents : List Nat
  audioStarted : Bool
  transport : Transport
  sound : List SoundCmd
  deriving DecidableEq, Repr

/-- The state after the module has loaded and `initInstruments` has run.  The
loop settings of the transport are assigned by `startPlayback` before the
transport first runs. -/
def init : State :=
  { isRecording := false
    isPlaying := false
    recordedNotes := []
    currentPreset := "piano"
    activeNotes := []
    scheduledEvents := []
    audioStarted := false
    transport :=
      { started := false, loop := false, loopStart := 0, loopEnd := 0, bpm := BPM,
        events := [], nextId := 0 }
    sound := [] }

/-! ## Operations -/

/-- The sound-layer call of one drum hit (shared by `playDrum` and the
scheduled callback): noise, metal, or pitched membrane. -/
def drumCmd (drum : Drum) (note : String) (time : Option ℚ) : SoundCmd :=
  if drum.isNoise then
    SoundCmd.drumAttackRelease drum.synth none drum.duration time
  else if drum.isMetal then
    SoundCmd.drumAttackRelease drum.synth (some (drum.note.getD "C4")) drum.duration time
  else
    SoundCmd.drumAttackRelease drum.synth (some (drum.note.getD note)) drum.duration time

/-- Source: `playDrum`. -/
def playDrum (st : State) (note : String) : State :=
  match drumSynths note with
  | none => st
  | some drum => { st with sound := st.sound ++ [drumCmd drum note none] }

/-- Source: `getCurrentInstrument`. -/
def getCurrentInstrument (st : State) : Instrument :=
  if st.currentPreset = "piano" then Instrument.pianoSynth
  else if st.currentPreset = "synth" then Instrument.leadSynth
  else Instrument.pianoSynth

/-- Source: `playNote`, with `now` the value of `Tone.Transport.seconds`. -/
def playNote (st : State) (note : String) (now : ℚ) : State :=
  if !st.audioStarted then st
  else
    let st1 :=
      if st.currentPreset = "drums" then playDrum st note
      else { st with sound := st.sound ++ [SoundCmd.triggerAttack (getCurrentInstrument st) note] }
    if st1.isRecording then
      let time := jsMod now LOOP_DURATION
      { st1 with activeNotes := st1.activeNotes.set note time }
    else st1

/-- Source: `stopNote`, with `now` the value of `Tone.Transport.seconds`.  The
test `activeNotes.has(note)` and the read `activeNotes.get(note)` are the one
lookup `get`.  The duration is computed exactly here; `stopNoteF64` rounds each
operation to binary64 as the code does. -/
def stopNote (st : State) (note : String) (now : ℚ) : State :=
  let st1 :=
    if st.currentPreset ≠ "drums" then
      { st with sound := st.sound ++ [SoundCmd.triggerRelease (getCurrentInstrument st) note] }
    else st
  match st1.isRecording, st1.activeNotes.get note with
  | true, some startTime =>
    let endTime := jsMod now LOOP_DURATION
    let duration := endTime - startTime
    let duration := if duration < 0 then duration + LOOP_DURATION else duration
    let duration := if duration < 0.05 then 0.1 else duration
    { st1 with
      recordedNotes := st1.recordedNotes ++
        [{ note := note, time := startTime, duration := duration, preset := st1.currentPreset }]
      activeNotes := st1.activeNotes.delete note }
  | _, _ => st1

/-- Source: `startAudioContext`; `gate` tells whether `Tone.start()` resolves. -/
def startAudioContext (st : State) (gate : Bool) : State :=
  if st.audioStarted then st
  else if gate then { st with audioStarted := true }
  else st

/-- The callback `scheduleLoop` registers for `noteData`, fired at `time`. -/
def scheduledCallback (noteData : NoteEvent) (time : ℚ) : List SoundCmd :=
  if noteData.preset = "drums" then
    match drumSynths noteData.note with
    | some drum => [drumCmd drum noteData.note (some time)]
    | none => []
  else
    let instrument :=
      if noteData.preset = "synth" then Instrument.leadSynth else Instrument.pianoSynth
    [SoundCmd.triggerAttackRelease instrument noteData.note noteData.duration time]

/-- The first two lines of `scheduleLoop` and of `clearLoop`: clear every
tracked id on the transport, then forget them. -/
def clearScheduled (st : State) : State :=
  { st with
    transport := st.scheduledEvents.foldl (fun tr id => tr.clear id) st.transport
    scheduledEvents := [] }

/-- One iteration of the `recordedNotes.forEach` of `scheduleLoop`. -/
def scheduleOne (st : State) (noteData : NoteEvent) : State :=
  let r := st.transport.schedule noteData noteData.time
  { st with transport := r.2, scheduledEvents := st.scheduledEvents ++ [r.1] }

/-- Source: `scheduleLoop`. -/
def scheduleLoop (st : State) : State :=
  st.recordedNotes.foldl scheduleOne (clearScheduled st)

/-- Source: `startPlayback`. -/
def startPlayback (st : State) (gate : Bool) : State :=
  let st1 := startAudioContext st gate
  let st2 := { st1 with isPlaying := true }
  let st3 :=
    { st2 with
      transport :=
        { st2.transport with loop := true, loopStart := 0, loopEnd := LOOP_DURATION, bpm := BPM } }
  let st4 := scheduleLoop st3
  { st4 with transport := { st4.transport with started := true } }

/-- Source: `stopPlayback`.  The reset `Tone.Transport.position = 0` shows in
the `now` later operations read. -/
def stopPlayback (st : State) : State :=
  { st with
    isPlaying := false
    isRecording := false
    transport := { st.transport with started := false }
    sound := st.sound ++
      [SoundCmd.releaseAll Instrument.pianoSynth, SoundCmd.releaseAll Instrument.leadSynth] }

/-- Source: `toggleRecord`. -/
def toggleRecord (st : State) (gate : Bool) : State :=
  let st1 := { st with isRecording := !st.isRecording }
  if st1.isRecording && !st1.isPlaying then startPlayback st1 gate else st1

/-- Source: `togglePlay`. -/
def togglePlay (st : State) (gate : Bool) : State :=
  if st.isPlaying then stopPlayback st else startPlayback st gate

/-- Source: `clearLoop`. -/
def clearLoop (st : State) : State :=
  let st1 := clearScheduled { st with recordedNotes := [] }
  if st1.isPlaying then scheduleLoop st1 else st1

/-- Source: `changePreset`. -/
def changePreset (st : State) (preset : String) : State :=
  { st with currentPreset := preset }

/-! ## Binary64 arithmetic -/

/-- Round to the nearest integer, ties to the even one. -/
def roundHalfEven (x : ℚ) : ℤ :=
  let f := Int.floor x
  if x - f < 1 / 2 then f
  else if 1 / 2 < x - f then f + 1
  else if f % 2 = 0 then f
  else f + 1

/-- The exponent of the unit in the last place of the binary64 numbers around
`q`: 52 below the binade of `q`, and `-1074` throughout the subnormal range. -/
def f64Exp (q : ℚ) : ℤ :=
  max (Int.log 2 |q|) (-1022) - 52

/-- The binary64 number nearest to `q` (round to nearest, ties to even), for
`q` within the finite range. -/
def f64Round (q : ℚ) : ℚ :=
  if q = 0 then 0 else (roundHalfEven (q / 2 ^ f64Exp q) : ℚ) * 2 ^ f64Exp q

/-- Source: `stopNote`, with the arithmetic of the duration carried out in
binary64: `endTime - startTime` and `duration + LOOP_DURATION` are rounded to
nearest, and `0.05` and `0.1` are the binary64 numbers so written.  The
remainder `%` is exact on binary64 numbers and `LOOP_DURATION` is the integer 8. -/
def stopNoteF64 (st : State) (note : String) (now : ℚ) : State :=
  let st1 :=
    if st.currentPreset ≠ "drums" then
      { st with sound := st.sound ++ [SoundCmd.triggerRelease (getCurrentInstrument st) note] }
    else st
  match st1.isRecording, st1.activeNotes.get note with
  | true, some startTime =>
    let endTime := jsMod now LOOP_DURATION
    let duration := f64Round (endTime - startTime)
    let duration := if duration < 0 then f64Round (duration + LOOP_DURATION) else duration
    let duration := if duration < f64Round 0.05 then f64Round 0.1 else duration
    { st1 with
      recordedNotes := st1.recordedNotes ++
        [{ note := note, time := startTime, duration := duration, preset := st1.currentPreset }]
      activeNotes := st1.activeNotes.delete note }
  | _, _ => st1

/-- A value is a binary64 number: rounding leaves it as it is. -/
def IsF64 (q : ℚ) : Prop :=
  f64Round q = q

instance (q : ℚ) : Decidable (IsF64 q) := by
  unfold IsF64; infer_instance

/-! ## Runs of the session -/

/-- The operations the input layer and the control buttons can invoke. -/
inductive Op where
  | toggleRecord (gate : Bool)
  | togglePlay (gate : Bool)
  | startPlayback (gate : Bool)
  | stopPlayback
  | clearLoop
  | changePreset (preset : String)
  | startAudioContext (gate : Bool)
  | playNote (note : String) (now : ℚ)
  | stopNote (note : String) (now : ℚ)
  deriving DecidableEq, Repr

/-- One completed operation. -/
def step (st : State) : Op → State
  | Op.toggleRecord gate => toggleRecord st gate
  | Op.togglePlay gate => togglePlay st gate
  | Op.startPlayback gate => startPlayback st gate
  | Op.stopPlayback => stopPlayback st
  | Op.clearLoop => clearLoop st
  | Op.changePreset preset => changePreset st preset
  | Op.startAudioContext gate => startAudioContext st gate
  | Op.playNote note now => playNote st note now
  | Op.stopNote note now => stopNote st note now

/-- A sequence of completed operations, oldest first. -/
def run (st : State) (ops : List Op) : State :=
  ops.foldl step st

/-- The transport time an operation reads, if any, is non-negative. -/
def Op.timeNonneg : Op → Prop
  | Op.playNote _ now => 0 ≤ now
  | Op.stopNote _ now => 0 ≤ now
  | _ => True

instance (op : Op) : Decidable op.timeNonneg := by
  cases op <;> simp only [Op.timeNonneg] <;> infer_instance

/-- The operation is `toggleRecord`. -/
def Op.isToggleRecord : Op → Bool
  | Op.toggleRecord _ => true
  | _ => false

/-! ## Invariants -/

/-- Every committed event and every in-flight press carries a loop offset in
`[0, LOOP_DURATION)`. -/
def LoopOffsetsOk (s : State) : Prop :=
  (∀ ev ∈ s.recordedNotes, 0 ≤ ev.time ∧ ev.time < LOOP_DURATION) ∧
    (∀ e ∈ s.activeNotes, 0 ≤ e.2 ∧ e.2 < LOOP_DURATION)

/-- The handles the session tracks are exactly the registrations on the
transport timeline, in order. -/
def Tracked (s : State) : Prop :=
  s.transport.ids = s.scheduledEvents

/-! ## Arithmetic of loop offsets -/

theorem jsMod_loop_bounds {t : ℚ} (h : 0 ≤ t) :
    0 ≤ jsMod t LOOP_DURATION ∧ jsMod t LOOP_DURATION < LOOP_DURATION := by
  have h8 : (0 : ℚ) ≤ t / 8 := div_nonneg h (by norm_num)
  have hfl := Int.floor_le (t / 8)
  have hlt := Int.lt_floor_add_one (t / 8)
  simp only [jsMod, LOOP_DURATION, if_pos h8]
  constructor <;> linarith

theorem jsMod_loop_eq_self {t : ℚ} (h : 0 ≤ t) (h' : t < LOOP_DURATION) :
    jsMod t LOOP_DURATION = t := by
  have h8 : (0 : ℚ) ≤ t / 8 := div_nonneg h (by norm_num)
  have hfl : Int.floor (t / 8) = 0 := by
    rw [Int.floor_eq_iff]
    simp only [LOOP_DURATION] at h'
    constructor
    · simpa using h8
    · norm_num; linarith
  simp only [jsMod, LOOP_DURATION, if_pos h8, hfl]
  simp

/-! ## Frame lemmas: which fields an operation leaves alone -/

theorem foldl_scheduleOne_frame (l : List NoteEvent) (s : State) :
    ∃ tr se, l.foldl scheduleOne s = { s with transport := tr, scheduledEvents := se } := by
  induction l generalizing s with
  | nil => exact ⟨s.transport, s.scheduledEvents, rfl⟩
  | cons a l ih =>
    obtain ⟨tr, se, h⟩ := ih (scheduleOne s a)
    exact ⟨tr, se, by rw [List.foldl_cons, h]; rfl⟩

theorem scheduleLoop_frame (s : State) :
    ∃ tr se, scheduleLoop s = { s with transport := tr, scheduledEvents := se } := by
  obtain ⟨tr, se, h⟩ := foldl_scheduleOne_frame s.recordedNotes (clearScheduled s)
  exact ⟨tr, se, by rw [scheduleLoop, h]; rfl⟩

@[simp] theorem scheduleLoop_recordedNotes (s : State) :
    (scheduleLoop s).recordedNotes = s.recordedNotes := by
  obtain ⟨tr, se, h⟩ := scheduleLoop_frame s; rw [h]

@[simp] theorem scheduleLoop_activeNotes (s : State) :
    (scheduleLoop s).activeNotes = s.activeNotes := by
  obtain ⟨tr, se, h⟩ := scheduleLoop_frame s; rw [h]

@[simp] theorem scheduleLoop_isRecording (s : State) :
    (scheduleLoop s).isRecording = s.isRecording := by
  obtain ⟨tr, se, h⟩ := scheduleLoop_frame s; rw [h]

@[simp] theorem scheduleLoop_isPlaying (s : State) :
    (scheduleLoop s).isPlaying = s.isPlaying := by
  obtain ⟨tr, se, h⟩ := scheduleLoop_frame s; rw [h]

@[simp] theorem scheduleLoop_audioStarted (s : State) :
    (scheduleLoop s).audioStarted = s.audioStarted := by
  obtain ⟨tr, se, h⟩ := scheduleLoop_frame s; rw [h]

@[simp] theorem scheduleLoop_currentPreset (s : State) :
    (scheduleLoop s).currentPreset = s.currentPreset := by
  obtain ⟨tr, se, h⟩ := scheduleLoop_frame s; rw [h]

@[simp] theorem startAudioContext_recordedNotes (s : State) (g : Bool) :
    (startAudioContext s g).recordedNotes = s.recordedNotes := by
  unfold startAudioContext; split_ifs <;> rfl

@[simp] theorem startAudioContext_activeNotes (s : State) (g : Bool) :
    (startAudioContext s g).activeNotes = s.activeNotes := by
  unfold startAudioContext; split_ifs <;> rfl

@[simp] theorem startAudioContext_isRecording (s : State) (g : Bool) :
    (startAudioContext s g).isRecording = s.isRecording := by
  unfold startAudioContext; split_ifs <;> rfl

@[simp] theorem startAudioContext_isPlaying (s : State) (g : Bool) :
    (startAudioContext s g).isPlaying = s.isPlaying := by
  unfold startAudioContext; split_ifs <;> rfl

@[simp] theorem startAudioContext_currentPreset (s : State) (g : Bool) :
    (startAudioContext s g).currentPreset = s.currentPreset := by
  unfold startAudioContext; split_ifs <;> rfl

@[simp] theorem startPlayback_recordedNotes (s : State) (g : Bool) :
    (startPlayback s g).recordedNotes = s.recordedNotes := by
  simp [startPlayback]

@[simp] theorem startPlayback_activeNotes (s : State) (g : Bool) :
    (startPlayback s g).activeNotes = s.activeNotes := by
  simp [startPlayback]

@[simp] theorem startPlayback_isRecording (s : State) (g : Bool) :
    (startPlayback s g).isRecording = s.isRecording := by
  simp [startPlayback]

@[simp] theorem startPlayback_isPlaying (s : State) (g : Bool) :
    (startPlayback s g).isPlaying = true := by
  simp [startPlayback]

@[simp] theorem startPlayback_currentPreset (s : State) (g : Bool) :
    (startPlayback s g).currentPreset = s.currentPreset := by
  simp [startPlayback]

@[simp] theorem toggleRecord_recordedNotes (s : State) (g : Bool) :
    (toggleRecord s g).recordedNotes = s.recordedNotes := by
  unfold toggleRecord; simp only []; split_ifs <;> simp

@[simp] theorem toggleRecord_activeNotes (s : State) (g : Bool) :
    (toggleRecord s g).activeNotes = s.activeNotes := by
  unfold toggleRecord; simp only []; split_ifs <;> simp

@[simp] theorem toggleRecord_isRecording (s : State) (g : Bool) :
    (toggleRecord s g).isRecording = !s.isRecording := by
  unfold toggleRecord; simp only []; split_ifs <;> simp

@[simp] theorem toggleRecord_currentPreset (s : State) (g : Bool) :
    (toggleRecord s g).currentPreset = s.currentPreset := by
  unfold toggleRecord; simp only []; split_ifs <;> simp

@[simp] theorem togglePlay_recordedNotes (s : State) (g : Bool) :
    (togglePlay s g).recordedNotes = s.recordedNotes := by
  unfold togglePlay; split_ifs <;> simp [stopPlayback]

@[simp] theorem togglePlay_activeNotes (s : State) (g : Bool) :
    (togglePlay s g).activeNotes = s.activeNotes := by
  unfold togglePlay; split_ifs <;> simp [stopPlayback]

@[simp] theorem clearLoop_recordedNotes (s : State) : (clearLoop s).recordedNotes = [] := by
  unfold clearLoop; simp only []; split_ifs <;> simp [clearScheduled]

@[simp] theorem clearLoop_activeNotes (s : State) :
    (clearLoop s).activeNotes = s.activeNotes := by
  unfold clearLoop; simp only []; split_ifs <;> simp [clearScheduled]

@[simp] theorem clearLoop_isRecording (s : State) :
    (clearLoop s).isRecording = s.isRecording := by
  unfold clearLoop; simp only []; split_ifs <;> simp [clearScheduled]

@[simp] theorem clearLoop_isPlaying (s : State) :
    (clearLoop s).isPlaying = s.isPlaying := by
  unfold clearLoop; simp only []; split_ifs <;> simp [clearScheduled]

theorem playDrum_frame (s : State) (note : String) :
    ∃ snd, playDrum s note = { s with sound := snd } := by
  unfold playDrum; split
  · exact ⟨s.sound, rfl⟩
  · exact ⟨_, rfl⟩

@[simp] theorem playNote_recordedNotes (s : State) (note : String) (now : ℚ) :
    (playNote s note now).recordedNotes = s.recordedNotes := by
  obtain ⟨snd, h⟩ := playDrum_frame s note
  unfold playNote; simp only [h]; split_ifs <;> rfl

@[simp] theorem playNote_isRecording (s : State) (note : String) (now : ℚ) :
    (playNote s note now).isRecording = s.isRecording := by
  obtain ⟨snd, h⟩ := playDrum_frame s note
  unfold playNote; simp only [h]; split_ifs <;> rfl

@[simp] theorem playNote_isPlaying (s : State) (note : String) (now : ℚ) :
    (playNote s note now).isPlaying = s.isPlaying := by
  obtain ⟨snd, h⟩ := playDrum_frame s note
  unfold playNote; simp only [h]; split_ifs <;> rfl

@[simp] theorem playNote_currentPreset (s : State) (note : String) (now : ℚ) :
    (playNote s note now).currentPreset = s.currentPreset := by
  obtain ⟨snd, h⟩ := playDrum_frame s note
  unfold playNote; simp only [h]; split_ifs <;> rfl

/-- What `playNote` does to the ActiveNote map. -/
theorem playNote_activeNotes (s : State) (note : String) (now : ℚ) :
    (playNote s note now).activeNotes =
      if s.audioStarted && s.isRecording then s.activeNotes.set note (jsMod now LOOP_DURATION)
      else s.activeNotes := by
  obtain ⟨snd, h⟩ := playDrum_frame s note
  unfold playNote; simp only [h]
  cases ha : s.audioStarted <;> cases hr : s.isRecording <;>
    by_cases hd : s.currentPreset = "drums" <;> simp [hd, hr]

/-- What `stopNote` does to the Loop Store and the ActiveNote map, with the
sound-layer call set aside. -/
theorem stopNote_commit (s : State) (note : String) (now : ℚ) (startTime : ℚ)
    (hr : s.isRecording = true) (hg : s.activeNotes.get note = some startTime) :
    (stopNote s note now).recordedNotes = s.recordedNotes ++
        [{ note := note, time := startTime,
           duration :=
             (if (if jsMod now LOOP_DURATION - startTime < 0
                  then jsMod now LOOP_DURATION - startTime + LOOP_DURATION
                  else jsMod now LOOP_DURATION - startTime) < 0.05 then 0.1
              else (if jsMod now LOOP_DURATION - startTime < 0
                  then jsMod now LOOP_DURATION - startTime + LOOP_DURATION
                  else jsMod now LOOP_DURATION - startTime)),
           preset := s.currentPreset }] ∧
      (stopNote s note now).activeNotes = s.activeNotes.delete note := by
  unfold stopNote
  by_cases hd : s.currentPreset = "drums" <;> simp [hd, hr, hg]

theorem stopNote_skip (s : State) (note : String) (now : ℚ)
    (h : s.isRecording = false ∨ s.activeNotes.get note = none) :
    (stopNote s note now).recordedNotes = s.recordedNotes ∧
      (stopNote s note now).activeNotes = s.activeNotes := by
  unfold stopNote
  by_cases hd : s.currentPreset = "drums" <;> rcases h with h | h <;> simp [hd, h]

@[simp] theorem stopNote_isRecording (s : State) (note : String) (now : ℚ) :
    (stopNote s note now).isRecording = s.isRecording := by
  unfold stopNote; simp only []; split <;> split_ifs <;> rfl

@[simp] theorem stopNote_isPlaying (s : State) (note : String) (now : ℚ) :
    (stopNote s note now).isPlaying = s.isPlaying := by
  unfold stopNote; simp only []; split <;> split_ifs <;> rfl

@[simp] theorem stopNote_currentPreset (s : State) (note : String) (now : ℚ) :
    (stopNote s note now).currentPreset = s.currentPreset := by
  unfold stopNote; simp only []; split <;> split_ifs <;> rfl

/-! ## The ActiveNote map -/

theorem ActiveNotes.mem_set {m : ActiveNotes} {k : String} {v : ℚ} {e : String × ℚ}
    (h : e ∈ m.set k v) : e ∈ m ∨ e = (k, v) := by
  unfold ActiveNotes.set at h
  split_ifs at h
  · rw [List.mem_map] at h
    obtain ⟨a, ha, rfl⟩ := h
    split_ifs
    · exact Or.inr rfl
    · exact Or.inl ha
  · rw [List.mem_append, List.mem_singleton] at h
    exact h

theorem ActiveNotes.mem_of_get {m : ActiveNotes} {k : String} {v : ℚ}
    (h : m.get k = some v) : (k, v) ∈ m := by
  unfold ActiveNotes.get at h
  rw [Option.map_eq_some'] at h
  obtain ⟨e, he, rfl⟩ := h
  have hk := List.find?_some he
  have hm := List.mem_of_find?_eq_some he
  have : e.1 = k := by simpa using hk
  rw [← this]
  exact hm

theorem ActiveNotes.mem_delete {m : ActiveNotes} {k : String} {e : String × ℚ}
    (h : e ∈ m.delete k) : e ∈ m :=
  (List.mem_filter.mp h).1

/-! ## C1: committed loop offsets -/

theorem step_loopOffsetsOk (s : State) (op : Op) (hop : op.timeNonneg)
    (hs : LoopOffsetsOk s) : LoopOffsetsOk (step s op) := by
  obtain ⟨hrec, hact⟩ := hs
  cases op with
  | toggleRecord g => exact ⟨by simpa [step] using hrec, by simpa [step] using hact⟩
  | togglePlay g => exact ⟨by simpa [step] using hrec, by simpa [step] using hact⟩
  | startPlayback g => exact ⟨by simpa [step] using hrec, by simpa [step] using hact⟩
  | stopPlayback => exact ⟨hrec, hact⟩
  | clearLoop => exact ⟨by simp [step], by simpa [step] using hact⟩
  | changePreset p => exact ⟨hrec, hact⟩
  | startAudioContext g => exact ⟨by simpa [step] using hrec, by simpa [step] using hact⟩
  | playNote note now =>
    refine ⟨by simpa [step] using hrec, ?_⟩
    intro e he
    simp only [step, playNote_activeNotes] at he
    split_ifs at he
    · rcases ActiveNotes.mem_set he with h | rfl
      · exact hact e h
      · exact jsMod_loop_bounds hop
    · exact hact e he
  | stopNote note now =>
    simp only [step]
    cases hr : s.isRecording with
    | false =>
      obtain ⟨h1, h2⟩ := stopNote_skip s note now (Or.inl hr)
      exact ⟨by rw [h1]; exact hrec, by rw [h2]; exact hact⟩
    | true =>
      cases hg : s.activeNotes.get note with
      | none =>
        obtain ⟨h1, h2⟩ := stopNote_skip s note now (Or.inr hg)
        exact ⟨by rw [h1]; exact hrec, by rw [h2]; exact hact⟩
      | some startTime =>
        obtain ⟨h1, h2⟩ := stopNote_commit s note now startTime hr hg
        refine ⟨?_, ?_⟩
        · rw [h1]
          intro ev hev
          rw [List.mem_append, List.mem_singleton] at hev
          rcases hev with h | rfl
          · exact hrec ev h
          · exact hact _ (ActiveNotes.mem_of_get hg)
        · rw [h2]
          intro e he
          exact hact e (ActiveNotes.mem_delete he)

theorem run_loopOffsetsOk (ops : List Op) (s : State) (hops : ∀ op ∈ ops, op.timeNonneg)
    (hs : LoopOffsetsOk s) : LoopOffsetsOk (run s ops) := by
  induction ops generalizing s with
  | nil => exact hs
  | cons op ops ih =>
    exact ih (step s op) (fun o ho => hops o (List.mem_cons_of_mem _ ho))
      (step_loopOffsetsOk s op (hops op (List.mem_cons_self _ _)) hs)

theorem init_loopOffsetsOk : LoopOffsetsOk init :=
  ⟨fun _ h => absurd h (List.not_mem_nil _), fun _ h => absurd h (List.not_mem_nil _)⟩

/-- C1: after any sequence of session operations carried out at non-negative
transport times, every event in the Loop Store has `0 ≤ time < LOOP_DURATION`. -/
theorem C1_recorded_time_in_loop (ops : List Op) (hops : ∀ op ∈ ops, op.timeNonneg) :
    ∀ ev ∈ (run init ops).recordedNotes, 0 ≤ ev.time ∧ ev.time < LOOP_DURATION :=
  (run_loopOffsetsOk ops init hops init_loopOffsetsOk).1

theorem C1_recorded_time_in_loop_witness :
    (∀ op ∈ [Op.toggleRecord true, Op.playNote "C4" 9, Op.stopNote "C4" 10], op.timeNonneg) ∧
      ∀ ev ∈ (run init [Op.toggleRecord true, Op.playNote "C4" 9, Op.stopNote "C4" 10]).recordedNotes,
        0 ≤ ev.time ∧ ev.time < LOOP_DURATION :=
  ⟨by decide, C1_recorded_time_in_loop _ (by decide)⟩

theorem ActiveNotes.get_map_set (m : ActiveNotes) (k : String) (v : ℚ)
    (h : ActiveNotes.has m k = true) :
    ActiveNotes.get (m.map (fun e => if e.1 == k then (k, v) else e)) k = some v := by
  induction m with
  | nil => simp [ActiveNotes.has] at h
  | cons a m ih =>
    by_cases ha : a.1 = k
    · simp [ActiveNotes.get, ha]
    · have hm : ActiveNotes.has m k = true := by
        simpa [ActiveNotes.has, ha] using h
      have := ih hm
      simpa [ActiveNotes.get, ha] using this

theorem ActiveNotes.get_eq_none_of_has (m : ActiveNotes) (k : String)
    (h : ActiveNotes.has m k = false) : ActiveNotes.get m k = none := by
  induction m with
  | nil => rfl
  | cons a m ih =>
    have h' : ¬ a.1 = k ∧ ActiveNotes.has m k = false := by
      simpa [ActiveNotes.has] using h
    have := ih h'.2
    simpa [ActiveNotes.get, h'.1] using this

theorem ActiveNotes.get_set_self (m : ActiveNotes) (k : String) (v : ℚ) :
    (m.set k v).get k = some v := by
  unfold ActiveNotes.set
  split_ifs with h
  · exact ActiveNotes.get_map_set m k v h
  · have hn : ActiveNotes.get m k = none :=
      ActiveNotes.get_eq_none_of_has m k (by simpa using h)
    unfold ActiveNotes.get at hn ⊢
    rw [Option.map_eq_none'] at hn
    simp [List.find?_append, hn]

/-- The duration `stopNote` commits for a press at `startTime` released at
loop offset `endTime`, as a relation: wrap-around correction, then the floor. -/
theorem stopNote_appends (s : State) (note : String) (now : ℚ) (startTime : ℚ)
    (hr : s.isRecording = true) (hg : s.activeNotes.get note = some startTime) :
    ∃ d : ℚ,
      (stopNote s note now).recordedNotes = s.recordedNotes ++
        [{ note := note, time := startTime, duration := d, preset := s.currentPreset }] ∧
      (jsMod now LOOP_DURATION - startTime < 0 →
        jsMod now LOOP_DURATION - startTime + LOOP_DURATION < 0.05 → d = 0.1) ∧
      (jsMod now LOOP_DURATION - startTime < 0 →
        0.05 ≤ jsMod now LOOP_DURATION - startTime + LOOP_DURATION →
          d = jsMod now LOOP_DURATION - startTime + LOOP_DURATION) ∧
      (0 ≤ jsMod now LOOP_DURATION - startTime →
        jsMod now LOOP_DURATION - startTime < 0.05 → d = 0.1) ∧
      (0 ≤ jsMod now LOOP_DURATION - startTime →
        0.05 ≤ jsMod now LOOP_DURATION - startTime → d = jsMod now LOOP_DURATION - startTime) := by
  refine ⟨_, (stopNote_commit s note now startTime hr hg).1, ?_, ?_, ?_, ?_⟩
  · intro h1 h2; rw [if_pos h1, if_pos h2]
  · intro h1 h2; rw [if_pos h1, if_neg (not_lt.mpr h2)]
  · intro h1 h2; rw [if_neg (not_lt.mpr h1), if_pos h2]
  · intro h1 h2; rw [if_neg (not_lt.mpr h1), if_neg (not_lt.mpr h2)]

/-- A press while recording, with audio started, leaves its loop offset in the
ActiveNote map. -/
theorem playNote_get_self (s : State) (note : String) (now : ℚ)
    (ha : s.audioStarted = true) (hr : s.isRecording = true) :
    (playNote s note now).activeNotes.get note = some (jsMod now LOOP_DURATION) := by
  rw [playNote_activeNotes, ha, hr]
  exact ActiveNotes.get_set_self _ _ _

/-- The state in which the first press of a recording is being held: from the
initial state, `toggleRecord` with the audio gate opening, then `playNote`. -/
theorem held_get (note : String) (t : ℚ) (h0 : 0 ≤ t) (h8 : t < LOOP_DURATION) :
    (playNote (toggleRecord init true) note t).activeNotes.get note = some t := by
  rw [playNote_get_self _ _ _ (by decide) (by decide), jsMod_loop_eq_self h0 h8]

/-! ## Binary64 rounding -/

theorem roundHalfEven_cases (x : ℚ) :
    roundHalfEven x = Int.floor x ∧ x - Int.floor x ≤ 1 / 2 ∨
      roundHalfEven x = Int.floor x + 1 ∧ 1 / 2 ≤ x - Int.floor x := by
  unfold roundHalfEven
  simp only []
  split_ifs with h1 h2 h3
  · exact Or.inl ⟨rfl, le_of_lt h1⟩
  · exact Or.inr ⟨rfl, le_of_lt h2⟩
  · exact Or.inl ⟨rfl, not_lt.mp h2⟩
  · exact Or.inr ⟨rfl, not_lt.mp h1⟩

theorem roundHalfEven_ge (x : ℚ) (N : ℤ) (h : (N : ℚ) ≤ x) : N ≤ roundHalfEven x := by
  have hf : N ≤ Int.floor x := Int.le_floor.mpr h
  rcases roundHalfEven_cases x with ⟨h1, -⟩ | ⟨h1, -⟩ <;> rw [h1] <;> omega

theorem roundHalfEven_le (x : ℚ) (N : ℤ) (h : x ≤ (N : ℚ)) : roundHalfEven x ≤ N := by
  rcases roundHalfEven_cases x with ⟨h1, -⟩ | ⟨h1, h2⟩
  · rw [h1]
    exact_mod_cast (Int.floor_le x).trans h
  · rw [h1]
    have : ((Int.floor x : ℤ) : ℚ) < N := by linarith
    have : Int.floor x < N := by exact_mod_cast this
    omega

theorem roundHalfEven_error (x : ℚ) : |(roundHalfEven x : ℚ) - x| ≤ 1 / 2 := by
  have hfl := Int.floor_le x
  have hlt := Int.lt_floor_add_one x
  rw [abs_le]
  rcases roundHalfEven_cases x with ⟨h1, h2⟩ | ⟨h1, h2⟩
  · rw [h1]; constructor <;> linarith
  · rw [h1]; push_cast; constructor <;> linarith

theorem roundHalfEven_eq_of_near (x : ℚ) (r : ℤ) (h : |x - r| < 1 / 2) :
    roundHalfEven x = r := by
  rw [abs_lt] at h
  have hfl := Int.floor_le x
  have hlt := Int.lt_floor_add_one x
  rcases roundHalfEven_cases x with ⟨h1, h2⟩ | ⟨h1, h2⟩
  · rw [h1]
    have a : ((Int.floor x : ℤ) : ℚ) < r + 1 := by linarith
    have b : (r : ℚ) < Int.floor x + 1 := by linarith
    have a' : Int.floor x < r + 1 := by exact_mod_cast a
    have b' : r < Int.floor x + 1 := by exact_mod_cast b
    omega
  · rw [h1]
    have a : ((Int.floor x : ℤ) : ℚ) + 1 < r + 1 + 1 := by linarith
    have b : (r : ℚ) < Int.floor x + 1 + 1 := by linarith
    have a' : Int.floor x + 1 < r + 1 + 1 := by exact_mod_cast a
    have b' : r < Int.floor x + 1 + 1 := by exact_mod_cast b
    have c : (r : ℚ) - 1 / 2 < x := by linarith [h.1]
    have d : x < r + 1 / 2 := by linarith [h.2]
    have e : ((Int.floor x : ℤ) : ℚ) < r := by linarith
    have e' : Int.floor x < r := by exact_mod_cast e
    omega

theorem two_zpow_pos (t : ℤ) : (0 : ℚ) < 2 ^ t :=
  zpow_pos (by norm_num) t

theorem f64Exp_ge (q : ℚ) : -1074 ≤ f64Exp q := by
  unfold f64Exp
  have := le_max_right (Int.log 2 |q|) (-1022)
  omega

theorem f64Exp_eq (q : ℚ) (k : ℤ) (hk : -1022 ≤ k) (hlo : (2 : ℚ) ^ k ≤ |q|)
    (hhi : |q| < (2 : ℚ) ^ (k + 1)) : f64Exp q = k - 52 := by
  have hpos : (0 : ℚ) < |q| := lt_of_lt_of_le (two_zpow_pos k) hlo
  have h1 : k ≤ Int.log 2 |q| :=
    (Int.zpow_le_iff_le_log (by norm_num) hpos).mp (by exact_mod_cast hlo)
  have h2 : Int.log 2 |q| < k + 1 :=
    (Int.lt_zpow_iff_log_lt (by norm_num) hpos).mp (by exact_mod_cast hhi)
  unfold f64Exp
  have : Int.log 2 |q| = k := by omega
  rw [this, max_eq_left hk]

/-- Evaluating `f64Round`: in the binade `[2^k, 2^(k+1))`, `q` rounds to the
multiple `r` of the unit in the last place that is within half a unit. -/
theorem f64Round_eq (q : ℚ) (k r : ℤ) (hk : -1022 ≤ k) (hlo : (2 : ℚ) ^ k ≤ |q|)
    (hhi : |q| < (2 : ℚ) ^ (k + 1)) (hr : |q / 2 ^ (k - 52) - r| < 1 / 2) :
    f64Round q = r * 2 ^ (k - 52) := by
  have hpos : (0 : ℚ) < |q| := lt_of_lt_of_le (two_zpow_pos k) hlo
  have hq : q ≠ 0 := abs_pos.mp hpos
  unfold f64Round
  rw [if_neg hq, f64Exp_eq q k hk hlo hhi, roundHalfEven_eq_of_near _ r hr]

theorem f64Round_nonneg (q : ℚ) (h : 0 ≤ q) : 0 ≤ f64Round q := by
  unfold f64Round
  split_ifs
  · exact le_refl 0
  · have h0 : ((0 : ℤ) : ℚ) ≤ q / 2 ^ f64Exp q := by
      simpa using div_nonneg h (le_of_lt (two_zpow_pos _))
    have := roundHalfEven_ge _ 0 h0
    exact mul_nonneg (by exact_mod_cast this) (le_of_lt (two_zpow_pos _))

theorem f64Round_error (q : ℚ) : |f64Round q - q| ≤ 2 ^ f64Exp q / 2 := by
  unfold f64Round
  split_ifs with h
  · rw [h, sub_self, abs_zero]; exact le_of_lt (half_pos (two_zpow_pos _))
  · have hp := two_zpow_pos (f64Exp q)
    have he := roundHalfEven_error (q / 2 ^ f64Exp q)
    have : (roundHalfEven (q / 2 ^ f64Exp q) : ℚ) * 2 ^ f64Exp q - q =
        ((roundHalfEven (q / 2 ^ f64Exp q) : ℚ) - q / 2 ^ f64Exp q) * 2 ^ f64Exp q := by
      field_simp
    rw [this, abs_mul, abs_of_pos hp]
    calc |(roundHalfEven (q / 2 ^ f64Exp q) : ℚ) - q / 2 ^ f64Exp q| * 2 ^ f64Exp q
        ≤ 1 / 2 * 2 ^ f64Exp q := mul_le_mul_of_nonneg_right he (le_of_lt hp)
      _ = 2 ^ f64Exp q / 2 := by ring

theorem f64Exp_le_of_abs_le_eight (q : ℚ) (h : |q| ≤ 8) : f64Exp q ≤ -49 := by
  unfold f64Exp
  have hlog : Int.log 2 |q| ≤ 3 := by
    rcases eq_or_lt_of_le (abs_nonneg q) with h0 | hpos
    · rw [← h0, Int.log_of_right_le_zero 2 (le_refl (0 : ℚ))]; norm_num
    · have : Int.log 2 |q| < 4 :=
        (Int.lt_zpow_iff_log_lt (by norm_num) hpos).mp (by norm_num; linarith)
      omega
  have := max_le hlog (by norm_num : (-1022 : ℤ) ≤ 3)
  omega

theorem f64Round_ge_neg_eight (q : ℚ) (h : -8 ≤ q) (h' : q ≤ 0) : -8 ≤ f64Round q := by
  have habs : |q| ≤ 8 := by rw [abs_le]; constructor <;> linarith
  have ht := f64Exp_le_of_abs_le_eight q habs
  unfold f64Round
  split_ifs with hq
  · norm_num
  · have hp := two_zpow_pos (f64Exp q)
    have hN : (((2 : ℤ) ^ (3 - f64Exp q).toNat : ℤ) : ℚ) * 2 ^ f64Exp q = 8 := by
      push_cast
      rw [← zpow_natCast, Int.toNat_of_nonneg (by omega), ← zpow_add₀ (by norm_num)]
      norm_num
    have hle : ((-(2 : ℤ) ^ (3 - f64Exp q).toNat : ℤ) : ℚ) ≤ q / 2 ^ f64Exp q := by
      rw [le_div_iff₀ hp]
      push_cast at hN ⊢
      linarith
    have := roundHalfEven_ge _ _ hle
    have hc : ((-(2 : ℤ) ^ (3 - f64Exp q).toNat : ℤ) : ℚ) ≤
        (roundHalfEven (q / 2 ^ f64Exp q) : ℚ) := by exact_mod_cast this
    have := mul_le_mul_of_nonneg_right hc (le_of_lt hp)
    push_cast at hN this ⊢
    linarith

theorem two_zpow_f64Exp_le (q : ℚ) (h : (2 : ℚ) ^ (-1074 : ℤ) ≤ |q|) :
    (2 : ℚ) ^ f64Exp q ≤ |q| := by
  have hpos : (0 : ℚ) < |q| := lt_of_lt_of_le (two_zpow_pos _) h
  unfold f64Exp
  rcases le_total (Int.log 2 |q|) (-1022) with hl | hl
  · rw [max_eq_right hl]; exact h
  · rw [max_eq_left hl]
    calc (2 : ℚ) ^ (Int.log 2 |q| - 52) ≤ 2 ^ Int.log 2 |q| :=
          zpow_le_zpow_right₀ (by norm_num) (by omega)
      _ ≤ |q| := by exact_mod_cast Int.zpow_log_le_self (by norm_num) hpos

theorem f64Round_neg (q : ℚ) (h : q ≤ -(2 : ℚ) ^ (-1074 : ℤ)) : f64Round q < 0 := by
  have hq0 : q < 0 := lt_of_le_of_lt h (neg_lt_zero.mpr (two_zpow_pos _))
  have habs : |q| = -q := abs_of_neg hq0
  have hp := two_zpow_pos (f64Exp q)
  have hpow := two_zpow_f64Exp_le q (by rw [habs]; linarith)
  unfold f64Round
  rw [if_neg (ne_of_lt hq0)]
  have hle : q / 2 ^ f64Exp q ≤ ((-1 : ℤ) : ℚ) := by
    rw [div_le_iff₀ hp]
    push_cast
    rw [habs] at hpow
    linarith
  have := roundHalfEven_le _ _ hle
  have hc : (roundHalfEven (q / 2 ^ f64Exp q) : ℚ) ≤ ((-1 : ℤ) : ℚ) := by exact_mod_cast this
  have := mul_le_mul_of_nonneg_right hc (le_of_lt hp)
  push_cast at this
  linarith

/-- A binary64 number is an integer multiple of the smallest subnormal. -/
theorem IsF64.multiple {q : ℚ} (h : IsF64 q) : ∃ m : ℤ, q = m * 2 ^ (-1074 : ℤ) := by
  unfold IsF64 f64Round at h
  split_ifs at h with hq
  · exact ⟨0, by simp [hq]⟩
  · refine ⟨roundHalfEven (q / 2 ^ f64Exp q) * 2 ^ (f64Exp q + 1074).toNat, ?_⟩
    have hge := f64Exp_ge q
    have : (((2 : ℤ) ^ (f64Exp q + 1074).toNat : ℤ) : ℚ) * 2 ^ (-1074 : ℤ) = 2 ^ f64Exp q := by
      push_cast
      rw [← zpow_natCast, Int.toNat_of_nonneg (by omega), ← zpow_add₀ (by norm_num)]
      congr 1
      omega
    push_cast at this ⊢
    rw [mul_assoc, this]
    exact h.symm

theorem eight_multiple : ∃ N : ℤ, (8 : ℚ) = N * 2 ^ (-1074 : ℤ) := by
  refine ⟨2 ^ (1077 : ℕ), ?_⟩
  rw [Int.cast_pow, ← zpow_natCast, Int.cast_ofNat, ← zpow_add₀ (by norm_num)]
  norm_num

theorem jsMod_loop_multiple {q : ℚ} (h : ∃ m : ℤ, q = m * 2 ^ (-1074 : ℤ)) :
    ∃ m : ℤ, jsMod q LOOP_DURATION = m * 2 ^ (-1074 : ℤ) := by
  obtain ⟨m, hm⟩ := h
  obtain ⟨N, hN⟩ := eight_multiple
  unfold jsMod LOOP_DURATION
  generalize (if 0 ≤ q / 8 then Int.floor (q / 8) else Int.ceil (q / 8) : ℤ) = k
  refine ⟨m - N * k, ?_⟩
  push_cast
  rw [hN]
  nth_rewrite 1 [hm]
  ring

/-! ## Binary64 values used in the examples -/

/-- The binary64 number written `0.05`. -/
theorem f64Round_0_05 : f64Round (0.05) = 3602879701896397 / 72057594037927936 := by
  rw [f64Round_eq (0.05) (-5) 7205759403792794 (by norm_num) (by norm_num [abs_le, le_abs])
    (by norm_num [abs_lt]) (by norm_num [abs_lt])]
  norm_num

/-- The binary64 number written `0.1`. -/
theorem f64Round_0_1 : f64Round (0.1) = 3602879701896397 / 36028797018963968 := by
  rw [f64Round_eq (0.1) (-4) 7205759403792794 (by norm_num) (by norm_num [abs_le, le_abs])
    (by norm_num [abs_lt]) (by norm_num [abs_lt])]
  norm_num

/-- The binary64 number written `7.9`. -/
theorem f64Round_7_9 : f64Round (79 / 10) = 4447304632028365 / 562949953421312 := by
  rw [f64Round_eq (79 / 10) 2 8894609264056730 (by norm_num) (by norm_num [abs_le, le_abs])
    (by norm_num [abs_lt]) (by norm_num [abs_lt])]
  norm_num

/-- The binary64 number written `7.96`. -/
theorem f64Round_7_96 : f64Round (796 / 100) = 8962163258467287 / 1125899906842624 := by
  rw [f64Round_eq (796 / 100) 2 8962163258467287 (by norm_num) (by norm_num [abs_le, le_abs])
    (by norm_num [abs_lt]) (by norm_num [abs_lt])]
  norm_num

/-- The binary64 number written `0.01`. -/
theorem f64Round_0_01 : f64Round (1 / 100) = 5764607523034235 / 576460752303423488 := by
  rw [f64Round_eq (1 / 100) (-7) 5764607523034235 (by norm_num) (by norm_num [abs_le, le_abs])
    (by norm_num [abs_lt]) (by norm_num [abs_lt])]
  norm_num

/-- The number `7.9` is a fixed point of rounding. -/
theorem f64Round_7_9_fixed : f64Round (4447304632028365 / 562949953421312) = 4447304632028365 / 562949953421312 := by
  rw [f64Round_eq (4447304632028365 / 562949953421312) 2 8894609264056730 (by norm_num) (by norm_num [abs_le, le_abs])
    (by norm_num [abs_lt]) (by norm_num [abs_lt])]
  norm_num

/-- The number `0.1` is a fixed point of rounding. -/
theorem f64Round_0_1_fixed : f64Round (3602879701896397 / 36028797018963968) = 3602879701896397 / 36028797018963968 := by
  rw [f64Round_eq (3602879701896397 / 36028797018963968) (-4) 7205759403792794 (by norm_num) (by norm_num [abs_le, le_abs])
    (by norm_num [abs_lt]) (by norm_num [abs_lt])]
  norm_num

/-- The number `7.96` is a fixed point of rounding. -/
theorem f64Round_7_96_fixed : f64Round (8962163258467287 / 1125899906842624) = 8962163258467287 / 1125899906842624 := by
  rw [f64Round_eq (8962163258467287 / 1125899906842624) 2 8962163258467287 (by norm_num) (by norm_num [abs_le, le_abs])
    (by norm_num [abs_lt]) (by norm_num [abs_lt])]
  norm_num

/-- The number `0.01` is a fixed point of rounding. -/
theorem f64Round_0_01_fixed : f64Round (5764607523034235 / 576460752303423488) = 5764607523034235 / 576460752303423488 := by
  rw [f64Round_eq (5764607523034235 / 576460752303423488) (-7) 5764607523034235 (by norm_num) (by norm_num [abs_le, le_abs])
    (by norm_num [abs_lt]) (by norm_num [abs_lt])]
  norm_num

/-- The binary64 difference `0.1 - 7.9`. -/
theorem f64Round_seam_sub : f64Round (3602879701896397 / 36028797018963968 - 4447304632028365 / 562949953421312) = -2195504818343117 / 281474976710656 := by
  rw [f64Round_eq (3602879701896397 / 36028797018963968 - 4447304632028365 / 562949953421312) 2 (-8782019273372468) (by norm_num) (by norm_num [abs_le, le_abs])
    (by norm_num [abs_lt]) (by norm_num [abs_lt])]
  norm_num

/-- The binary64 sum `(0.1 - 7.9) + 8`. -/
theorem f64Round_seam_add : f64Round (-2195504818343117 / 281474976710656 + 8) = 56294995342131 / 281474976710656 := by
  rw [f64Round_eq (-2195504818343117 / 281474976710656 + 8) (-3) 7205759403792768 (by norm_num) (by norm_num [abs_le, le_abs])
    (by norm_num [abs_lt]) (by norm_num [abs_lt])]
  norm_num

/-- The binary64 difference `0.01 - 7.96`. -/
theorem f64Round_guard_sub : f64Round (5764607523034235 / 576460752303423488 - 8962163258467287 / 1125899906842624) = -8950904259398861 / 1125899906842624 := by
  rw [f64Round_eq (5764607523034235 / 576460752303423488 - 8962163258467287 / 1125899906842624) 2 (-8950904259398861) (by norm_num) (by norm_num [abs_le, le_abs])
    (by norm_num [abs_lt]) (by norm_num [abs_lt])]
  norm_num

/-- The binary64 sum `(0.01 - 7.96) + 8`. -/
theorem f64Round_guard_add : f64Round (-8950904259398861 / 1125899906842624 + 8) = 56294995342131 / 1125899906842624 := by
  rw [f64Round_eq (-8950904259398861 / 1125899906842624 + 8) (-5) 7205759403792768 (by norm_num) (by norm_num [abs_le, le_abs])
    (by norm_num [abs_lt]) (by norm_num [abs_lt])]
  norm_num

/-! ## `stopNote` in binary64 -/

/-- What `stopNoteF64` appends to the Loop Store when it commits. -/
theorem stopNoteF64_commit (s : State) (note : String) (now : ℚ) (startTime : ℚ)
    (hr : s.isRecording = true) (hg : s.activeNotes.get note = some startTime) :
    (stopNoteF64 s note now).recordedNotes = s.recordedNotes ++
        [{ note := note, time := startTime,
           duration :=
             (if (if f64Round (jsMod now LOOP_DURATION - startTime) < 0
                  then f64Round (f64Round (jsMod now LOOP_DURATION - startTime) + LOOP_DURATION)
                  else f64Round (jsMod now LOOP_DURATION - startTime)) < f64Round 0.05
              then f64Round 0.1
              else (if f64Round (jsMod now LOOP_DURATION - startTime) < 0
                  then f64Round (f64Round (jsMod now LOOP_DURATION - startTime) + LOOP_DURATION)
                  else f64Round (jsMod now LOOP_DURATION - startTime))),
           preset := s.currentPreset }] := by
  unfold stopNoteF64
  by_cases hd : s.currentPreset = "drums" <;> simp [hd, hr, hg]

/-- The difference of a release offset and a later press offset, both binary64
numbers, rounds to a negative number no smaller than `-LOOP_DURATION`. -/
theorem f64Round_wrapped_sub (now startTime : ℚ) (hnowF : IsF64 now) (hsF : IsF64 startTime)
    (hs8 : startTime < LOOP_DURATION) (hnow : 0 ≤ now)
    (hwrap : jsMod now LOOP_DURATION < startTime) :
    f64Round (jsMod now LOOP_DURATION - startTime) < 0 ∧
      -8 ≤ f64Round (jsMod now LOOP_DURATION - startTime) ∧
      |f64Round (jsMod now LOOP_DURATION - startTime) - (jsMod now LOOP_DURATION - startTime)| ≤
        2 ^ (-50 : ℤ) := by
  obtain ⟨m, hm⟩ := jsMod_loop_multiple hnowF.multiple
  obtain ⟨n, hn⟩ := hsF.multiple
  have hu := two_zpow_pos (-1074)
  have he := (jsMod_loop_bounds hnow).1
  simp only [LOOP_DURATION] at hs8
  have hmn : m - n ≤ -1 := by
    have h1 : (m : ℚ) * 2 ^ (-1074 : ℤ) < n * 2 ^ (-1074 : ℤ) := by rw [← hm, ← hn]; exact hwrap
    have h2 : (m : ℚ) < n := lt_of_mul_lt_mul_right h1 (le_of_lt hu)
    have h3 : m < n := by exact_mod_cast h2
    omega
  have hle : jsMod now LOOP_DURATION - startTime ≤ -(2 : ℚ) ^ (-1074 : ℤ) := by
    have h1 : ((m - n : ℤ) : ℚ) ≤ ((-1 : ℤ) : ℚ) := by exact_mod_cast hmn
    have h2 := mul_le_mul_of_nonneg_right h1 (le_of_lt hu)
    push_cast at h2
    rw [hm, hn]
    linarith
  have habs : |jsMod now LOOP_DURATION - startTime| ≤ 8 := by
    rw [abs_le]; constructor <;> linarith
  refine ⟨f64Round_neg _ hle, f64Round_ge_neg_eight _ (by linarith) (by linarith), ?_⟩
  have herr := f64Round_error (jsMod now LOOP_DURATION - startTime)
  have hexp : (2 : ℚ) ^ f64Exp (jsMod now LOOP_DURATION - startTime) ≤ 2 ^ (-49 : ℤ) :=
    zpow_le_zpow_right₀ (by norm_num) (f64Exp_le_of_abs_le_eight _ habs)
  have h49 : (2 : ℚ) ^ (-49 : ℤ) / 2 = 2 ^ (-50 : ℤ) := by norm_num
  rw [← h49]
  exact le_trans herr ((div_le_div_iff_of_pos_right (by norm_num : (0 : ℚ) < 2)).mpr hexp)

/-- Rounding a sum in `[0, 8]` moves it by at most `2^(-50)`. -/
theorem f64Round_error_le_eight (y : ℚ) (h0 : 0 ≤ y) (h8 : y ≤ 8) :
    |f64Round y - y| ≤ 2 ^ (-50 : ℤ) := by
  have habs : |y| ≤ 8 := by rw [abs_le]; constructor <;> linarith
  have herr := f64Round_error y
  have hexp : (2 : ℚ) ^ f64Exp y ≤ 2 ^ (-49 : ℤ) :=
    zpow_le_zpow_right₀ (by norm_num) (f64Exp_le_of_abs_le_eight _ habs)
  have h49 : (2 : ℚ) ^ (-49 : ℤ) / 2 = 2 ^ (-50 : ℤ) := by norm_num
  rw [← h49]
  exact le_trans herr ((div_le_div_iff_of_pos_right (by norm_num : (0 : ℚ) < 2)).mpr hexp)

/-- The first example: `toggleRecord`, then a press of C4 at transport time
`7.9`, evaluated up to the release at `0.1`. -/
theorem stopNoteF64_seam_example :
    (stopNoteF64 (playNote (toggleRecord init true) "C4" (f64Round (79 / 10))) "C4"
        (f64Round (1 / 10))).recordedNotes =
      [{ note := "C4", time := f64Round (79 / 10), duration := 56294995342131 / 281474976710656,
         preset := "piano" }] := by
  have h01 : f64Round (1 / 10) = 3602879701896397 / 36028797018963968 := by
    have := f64Round_0_1; norm_num at this ⊢; exact this
  rw [h01, f64Round_7_9]
  have hg := held_get "C4" (4447304632028365 / 562949953421312) (by norm_num) (by norm_num [LOOP_DURATION])
  have he : jsMod (3602879701896397 / 36028797018963968) LOOP_DURATION = 3602879701896397 / 36028797018963968 :=
    jsMod_loop_eq_self (by norm_num) (by norm_num [LOOP_DURATION])
  rw [stopNoteF64_commit _ "C4" _ _ (by decide) hg, he, f64Round_seam_sub]
  simp only [LOOP_DURATION]
  rw [f64Round_seam_add, f64Round_0_05]
  norm_num [init]

/-- The second example: `toggleRecord`, then a press of C4 at transport time
`7.96`, evaluated up to the release at `0.01`: the rounded duration falls below
`0.05` and the guard replaces it by `0.1`. -/
theorem stopNoteF64_guard_example :
    (stopNoteF64 (playNote (toggleRecord init true) "C4" (f64Round (796 / 100))) "C4"
        (f64Round (1 / 100))).recordedNotes =
      [{ note := "C4", time := f64Round (796 / 100), duration := f64Round 0.1,
         preset := "piano" }] := by
  rw [f64Round_0_01, f64Round_7_96]
  have hg := held_get "C4" (8962163258467287 / 1125899906842624) (by norm_num) (by norm_num [LOOP_DURATION])
  have he : jsMod (5764607523034235 / 576460752303423488) LOOP_DURATION = 5764607523034235 / 576460752303423488 :=
    jsMod_loop_eq_self (by norm_num) (by norm_num [LOOP_DURATION])
  rw [stopNoteF64_commit _ "C4" _ _ (by decide) hg, he, f64Round_guard_sub]
  simp only [LOOP_DURATION]
  rw [f64Round_guard_add, f64Round_0_05, f64Round_0_1]
  norm_num [init]

/-! ## C2: the duration floor -/

/-- C2 as stated fails: a press at loop offset 0 released at offset 0.07 is
committed with duration 0.07, below 0.1. -/
theorem C2_duration_below_tenth :
    (run init [Op.toggleRecord true, Op.playNote "C4" 0, Op.stopNote "C4" (7/100)]).recordedNotes =
        [{ note := "C4", time := 0, duration := 7/100, preset := "piano" }] ∧
      (7/100 : ℚ) < 0.1 := by
  have h0 : jsMod 0 LOOP_DURATION = 0 := jsMod_loop_eq_self (le_refl 0) (by norm_num [LOOP_DURATION])
  have h7 : jsMod (7/100) LOOP_DURATION = 7/100 :=
    jsMod_loop_eq_self (by norm_num) (by norm_num [LOOP_DURATION])
  have hg : (playNote (toggleRecord init true) "C4" 0).activeNotes.get "C4" = some 0 := by
    rw [playNote_activeNotes, if_pos (by decide), h0]
    exact ActiveNotes.get_set_self _ _ _
  obtain ⟨d, hd, -, -, -, h4⟩ := stopNote_appends (playNote (toggleRecord init true) "C4" 0) "C4" (7/100) 0
    (by decide) hg
  have hdv : d = 7/100 := by
    rw [h4 (by rw [h7]; norm_num) (by rw [h7]; norm_num), h7]; norm_num
  refine ⟨?_, by norm_num⟩
  show (stopNote (playNote (toggleRecord init true) "C4" 0) "C4" (7/100)).recordedNotes = _
  rw [hd, hdv]
  simp [init]

/-- C2 (amended): every event `stopNote` commits has a duration of at least
0.05 seconds: a computed duration that is below 0.05 s after the wrap-around
correction is replaced by 0.1 s, and any other computed duration is committed
unchanged. Stated for the arithmetic taken exactly (`stopNote`) and for the
arithmetic rounded to binary64 (`stopNoteF64`). -/
theorem C2_committed_duration_floor (s : State) (note : String) (now : ℚ) (startTime : ℚ)
    (hr : s.isRecording = true) (hg : s.activeNotes.get note = some startTime) :
    (∃ d : ℚ,
      (stopNote s note now).recordedNotes = s.recordedNotes ++
        [{ note := note, time := startTime, duration := d, preset := s.currentPreset }] ∧
      0.05 ≤ d ∧
      ((if jsMod now LOOP_DURATION - startTime < 0
          then jsMod now LOOP_DURATION - startTime + LOOP_DURATION
          else jsMod now LOOP_DURATION - startTime) < 0.05 → d = 0.1) ∧
      (0.05 ≤ (if jsMod now LOOP_DURATION - startTime < 0
          then jsMod now LOOP_DURATION - startTime + LOOP_DURATION
          else jsMod now LOOP_DURATION - startTime) →
        d = (if jsMod now LOOP_DURATION - startTime < 0
          then jsMod now LOOP_DURATION - startTime + LOOP_DURATION
          else jsMod now LOOP_DURATION - startTime))) ∧
    (∃ d : ℚ,
      (stopNoteF64 s note now).recordedNotes = s.recordedNotes ++
        [{ note := note, time := startTime, duration := d, preset := s.currentPreset }] ∧
      0.05 ≤ d ∧
      ((if f64Round (jsMod now LOOP_DURATION - startTime) < 0
          then f64Round (f64Round (jsMod now LOOP_DURATION - startTime) + LOOP_DURATION)
          else f64Round (jsMod now LOOP_DURATION - startTime)) < f64Round 0.05 →
        d = f64Round 0.1) ∧
      (f64Round 0.05 ≤ (if f64Round (jsMod now LOOP_DURATION - startTime) < 0
          then f64Round (f64Round (jsMod now LOOP_DURATION - startTime) + LOOP_DURATION)
          else f64Round (jsMod now LOOP_DURATION - startTime)) →
        d = (if f64Round (jsMod now LOOP_DURATION - startTime) < 0
          then f64Round (f64Round (jsMod now LOOP_DURATION - startTime) + LOOP_DURATION)
          else f64Round (jsMod now LOOP_DURATION - startTime)))) := by
  constructor
  · refine ⟨_, (stopNote_commit s note now startTime hr hg).1, ?_, ?_, ?_⟩
    · show (0.05 : ℚ) ≤ ite _ _ _
      split_ifs with h1 h2 h2
      · norm_num
      · exact not_lt.mp h2
      · norm_num
      · exact not_lt.mp h2
    · intro h; rw [if_pos h]
    · intro h; rw [if_neg (not_lt.mpr h)]
  · have h05 : (0.05 : ℚ) ≤ f64Round 0.05 := by rw [f64Round_0_05]; norm_num
    have h01 : (0.05 : ℚ) ≤ f64Round 0.1 := by rw [f64Round_0_1]; norm_num
    refine ⟨_, stopNoteF64_commit s note now startTime hr hg, ?_, ?_, ?_⟩
    · show (0.05 : ℚ) ≤ ite _ _ _
      split_ifs with h1 h2 h2
      · exact h01
      · exact le_trans h05 (not_lt.mp h2)
      · exact h01
      · exact le_trans h05 (not_lt.mp h2)
    · intro h; rw [if_pos h]
    · intro h; rw [if_neg (not_lt.mpr h)]

theorem C2_committed_duration_floor_witness :
    (playNote (toggleRecord init true) "C4" 1).isRecording = true ∧
      (playNote (toggleRecord init true) "C4" 1).activeNotes.get "C4" = some 1 ∧
      (∃ d : ℚ,
        (stopNote (playNote (toggleRecord init true) "C4" 1) "C4" (3 / 2)).recordedNotes =
          (playNote (toggleRecord init true) "C4" 1).recordedNotes ++
            [{ note := "C4", time := 1, duration := d,
               preset := (playNote (toggleRecord init true) "C4" 1).currentPreset }] ∧
        0.05 ≤ d) ∧
      (∃ d : ℚ,
        (stopNoteF64 (playNote (toggleRecord init true) "C4" 1) "C4" (3 / 2)).recordedNotes =
          (playNote (toggleRecord init true) "C4" 1).recordedNotes ++
            [{ note := "C4", time := 1, duration := d,
               preset := (playNote (toggleRecord init true) "C4" 1).currentPreset }] ∧
        0.05 ≤ d) := by
  have hg := held_get "C4" 1 (by norm_num) (by norm_num [LOOP_DURATION])
  obtain ⟨⟨d, h1, h2, -⟩, ⟨d', h3, h4, -⟩⟩ :=
    C2_committed_duration_floor (playNote (toggleRecord init true) "C4" 1) "C4" (3 / 2) 1
      (by decide) hg
  exact ⟨by decide, hg, ⟨d, h1, h2⟩, ⟨d', h3, h4⟩⟩

/-! ## C3: a hold across the loop seam -/

/-- C3 as stated fails on the binary64 arithmetic of the code. A press at 7.96
released at 0.01 has `e - s + LOOP_DURATION` above 0.05, yet the rounded sum is
below 0.05 and the event is committed with duration 0.1; a press at 7.9
released at 0.1 is committed with 0.1999999999999993, which is neither
`e - s + LOOP_DURATION` nor 0.2. -/
theorem C3_binary64_differs :
    jsMod (f64Round (1 / 100)) LOOP_DURATION < f64Round (796 / 100) ∧
      0.05 ≤ jsMod (f64Round (1 / 100)) LOOP_DURATION - f64Round (796 / 100) + LOOP_DURATION ∧
      (stopNoteF64 (playNote (toggleRecord init true) "C4" (f64Round (796 / 100))) "C4"
          (f64Round (1 / 100))).recordedNotes =
        [{ note := "C4", time := f64Round (796 / 100), duration := f64Round 0.1,
           preset := "piano" }] ∧
      f64Round 0.1 ≠
        jsMod (f64Round (1 / 100)) LOOP_DURATION - f64Round (796 / 100) + LOOP_DURATION ∧
      (stopNoteF64 (playNote (toggleRecord init true) "C4" (f64Round (79 / 10))) "C4"
          (f64Round (1 / 10))).recordedNotes =
        [{ note := "C4", time := f64Round (79 / 10), duration := 56294995342131 / 281474976710656,
           preset := "piano" }] ∧
      (56294995342131 / 281474976710656 : ℚ) ≠
        jsMod (f64Round (1 / 10)) LOOP_DURATION - f64Round (79 / 10) + LOOP_DURATION ∧
      (56294995342131 / 281474976710656 : ℚ) ≠ 0.2 := by
  have he2 : jsMod (5764607523034235 / 576460752303423488) LOOP_DURATION = 5764607523034235 / 576460752303423488 :=
    jsMod_loop_eq_self (by norm_num) (by norm_num [LOOP_DURATION])
  have he : jsMod (3602879701896397 / 36028797018963968) LOOP_DURATION = 3602879701896397 / 36028797018963968 :=
    jsMod_loop_eq_self (by norm_num) (by norm_num [LOOP_DURATION])
  have h01 : f64Round (1 / 10) = 3602879701896397 / 36028797018963968 := by
    have := f64Round_0_1; norm_num at this ⊢; exact this
  refine ⟨?_, ?_, stopNoteF64_guard_example, ?_, stopNoteF64_seam_example, ?_, by norm_num⟩
  · rw [f64Round_0_01, f64Round_7_96, he2]; norm_num
  · rw [f64Round_0_01, f64Round_7_96, he2]; norm_num [LOOP_DURATION]
  · rw [f64Round_0_01, f64Round_7_96, f64Round_0_1, he2]; norm_num [LOOP_DURATION]
  · rw [h01, f64Round_7_9, he]; norm_num [LOOP_DURATION]

/-- C3 (amended): a note pressed while recording at loop offset `startTime` and
released, still recording, at a smaller loop offset `e`, both binary64 numbers,
is committed with a duration that is not negative. With `v` the binary64 result
of `(e - startTime) + LOOP_DURATION`, each operation rounded to nearest, the
duration is `v` whenever `v` is at least the binary64 number 0.05 and is 0.1
otherwise; `v` is within `2^(-49)` of `e - startTime + LOOP_DURATION`. -/
theorem C3_wrapped_duration_binary64 (s : State) (note : String) (now : ℚ) (startTime : ℚ)
    (hr : s.isRecording = true) (hg : s.activeNotes.get note = some startTime)
    (hnowF : IsF64 now) (hsF : IsF64 startTime)
    (hs8 : startTime < LOOP_DURATION) (hnow : 0 ≤ now)
    (hwrap : jsMod now LOOP_DURATION < startTime) :
    ∃ d : ℚ,
      (stopNoteF64 s note now).recordedNotes = s.recordedNotes ++
        [{ note := note, time := startTime, duration := d, preset := s.currentPreset }] ∧
      0 ≤ d ∧
      (f64Round 0.05 ≤
          f64Round (f64Round (jsMod now LOOP_DURATION - startTime) + LOOP_DURATION) →
        d = f64Round (f64Round (jsMod now LOOP_DURATION - startTime) + LOOP_DURATION)) ∧
      (f64Round (f64Round (jsMod now LOOP_DURATION - startTime) + LOOP_DURATION) <
          f64Round 0.05 → d = f64Round 0.1) ∧
      |f64Round (f64Round (jsMod now LOOP_DURATION - startTime) + LOOP_DURATION) -
          (jsMod now LOOP_DURATION - startTime + LOOP_DURATION)| ≤ 2 ^ (-49 : ℤ) := by
  obtain ⟨hneg, hge, herr1⟩ := f64Round_wrapped_sub now startTime hnowF hsF hs8 hnow hwrap
  have hL : LOOP_DURATION = 8 := rfl
  have hv0 : 0 ≤ f64Round (f64Round (jsMod now LOOP_DURATION - startTime) + LOOP_DURATION) :=
    f64Round_nonneg _ (by linarith [hL])
  have herr2 := f64Round_error_le_eight
    (f64Round (jsMod now LOOP_DURATION - startTime) + LOOP_DURATION)
    (by linarith [hL]) (by linarith [hL])
  refine ⟨_, stopNoteF64_commit s note now startTime hr hg, ?_, ?_, ?_, ?_⟩
  · rw [if_pos hneg]
    split_ifs
    · exact f64Round_nonneg _ (by norm_num)
    · exact hv0
  · intro h; rw [if_pos hneg, if_neg (not_lt.mpr h)]
  · intro h; rw [if_pos hneg, if_pos h]
  · have h49 : (2 : ℚ) ^ (-49 : ℤ) = 2 ^ (-50 : ℤ) + 2 ^ (-50 : ℤ) := by norm_num
    rw [h49]
    have hsplit : f64Round (f64Round (jsMod now LOOP_DURATION - startTime) + LOOP_DURATION) -
        (jsMod now LOOP_DURATION - startTime + LOOP_DURATION) =
        (f64Round (f64Round (jsMod now LOOP_DURATION - startTime) + LOOP_DURATION) -
          (f64Round (jsMod now LOOP_DURATION - startTime) + LOOP_DURATION)) +
        (f64Round (jsMod now LOOP_DURATION - startTime) -
          (jsMod now LOOP_DURATION - startTime)) := by ring
    rw [hsplit]
    exact le_trans (abs_add _ _) (add_le_add herr2 herr1)

theorem C3_wrapped_duration_binary64_witness :
    (playNote (toggleRecord init true) "C4" (f64Round (79 / 10))).isRecording = true ∧
      (playNote (toggleRecord init true) "C4" (f64Round (79 / 10))).activeNotes.get "C4" =
        some (f64Round (79 / 10)) ∧
      IsF64 (f64Round (1 / 10)) ∧ IsF64 (f64Round (79 / 10)) ∧
      f64Round (79 / 10) < LOOP_DURATION ∧ 0 ≤ f64Round (1 / 10) ∧
      jsMod (f64Round (1 / 10)) LOOP_DURATION < f64Round (79 / 10) ∧
      ∃ d : ℚ,
        (stopNoteF64 (playNote (toggleRecord init true) "C4" (f64Round (79 / 10))) "C4"
            (f64Round (1 / 10))).recordedNotes =
          (playNote (toggleRecord init true) "C4" (f64Round (79 / 10))).recordedNotes ++
            [{ note := "C4", time := f64Round (79 / 10), duration := d,
               preset :=
                 (playNote (toggleRecord init true) "C4" (f64Round (79 / 10))).currentPreset }] ∧
        0 ≤ d ∧
        (f64Round 0.05 ≤
            f64Round (f64Round (jsMod (f64Round (1 / 10)) LOOP_DURATION - f64Round (79 / 10)) +
              LOOP_DURATION) →
          d = f64Round (f64Round (jsMod (f64Round (1 / 10)) LOOP_DURATION - f64Round (79 / 10)) +
              LOOP_DURATION)) ∧
        (f64Round (f64Round (jsMod (f64Round (1 / 10)) LOOP_DURATION - f64Round (79 / 10)) +
              LOOP_DURATION) < f64Round 0.05 →
          d = f64Round 0.1) ∧
        |f64Round (f64Round (jsMod (f64Round (1 / 10)) LOOP_DURATION - f64Round (79 / 10)) +
              LOOP_DURATION) -
            (jsMod (f64Round (1 / 10)) LOOP_DURATION - f64Round (79 / 10) + LOOP_DURATION)| ≤
          2 ^ (-49 : ℤ) := by
  have h01 : f64Round (1 / 10) = 3602879701896397 / 36028797018963968 := by
    have := f64Round_0_1; norm_num at this ⊢; exact this
  rw [h01, f64Round_7_9]
  have hg := held_get "C4" (4447304632028365 / 562949953421312) (by norm_num) (by norm_num [LOOP_DURATION])
  have he : jsMod (3602879701896397 / 36028797018963968) LOOP_DURATION = 3602879701896397 / 36028797018963968 :=
    jsMod_loop_eq_self (by norm_num) (by norm_num [LOOP_DURATION])
  have hw : jsMod (3602879701896397 / 36028797018963968) LOOP_DURATION < 4447304632028365 / 562949953421312 := by
    rw [he]; norm_num
  have h8 : (4447304632028365 / 562949953421312 : ℚ) < LOOP_DURATION := by norm_num [LOOP_DURATION]
  exact ⟨by decide, hg, f64Round_0_1_fixed, f64Round_7_9_fixed, h8, by norm_num, hw,
    C3_wrapped_duration_binary64 _ "C4" (3602879701896397 / 36028797018963968)
      (4447304632028365 / 562949953421312) (by decide) hg f64Round_0_1_fixed
      f64Round_7_9_fixed h8 (by norm_num) hw⟩

/-! ## C4: very short taps -/

/-- C4: when the release offset is less than 0.05 s after the press offset
(after the wrap-around correction), `stopNote` commits an event whose duration
is exactly 0.1 s. -/
theorem C4_short_tap_duration (s : State) (note : String) (now : ℚ) (startTime : ℚ)
    (hr : s.isRecording = true) (hg : s.activeNotes.get note = some startTime)
    (hshort : (if jsMod now LOOP_DURATION - startTime < 0
        then jsMod now LOOP_DURATION - startTime + LOOP_DURATION
        else jsMod now LOOP_DURATION - startTime) < 0.05) :
    (stopNote s note now).recordedNotes = s.recordedNotes ++
      [{ note := note, time := startTime, duration := 0.1, preset := s.currentPreset }] := by
  rw [(stopNote_commit s note now startTime hr hg).1, if_pos hshort]

theorem C4_short_tap_duration_witness :
    (playNote (toggleRecord init true) "C4" 1).isRecording = true ∧
      (playNote (toggleRecord init true) "C4" 1).activeNotes.get "C4" = some 1 ∧
      (if jsMod (102/100) LOOP_DURATION - 1 < 0
        then jsMod (102/100) LOOP_DURATION - 1 + LOOP_DURATION
        else jsMod (102/100) LOOP_DURATION - 1) < 0.05 ∧
      (stopNote (playNote (toggleRecord init true) "C4" 1) "C4" (102/100)).recordedNotes =
        (playNote (toggleRecord init true) "C4" 1).recordedNotes ++
          [{ note := "C4", time := 1, duration := 0.1,
             preset := (playNote (toggleRecord init true) "C4" 1).currentPreset }] := by
  have hg := held_get "C4" 1 (by norm_num) (by norm_num [LOOP_DURATION])
  have he : jsMod (102/100) LOOP_DURATION = 102/100 :=
    jsMod_loop_eq_self (by norm_num) (by norm_num [LOOP_DURATION])
  have hs : (if jsMod (102/100) LOOP_DURATION - 1 < 0
        then jsMod (102/100) LOOP_DURATION - 1 + LOOP_DURATION
        else jsMod (102/100) LOOP_DURATION - 1) < 0.05 := by
    rw [he]; norm_num
  exact ⟨by decide, hg, hs, C4_short_tap_duration _ "C4" (102/100) 1 (by decide) hg hs⟩

@[simp] theorem togglePlay_isRecording (s : State) (g : Bool) :
    (togglePlay s g).isRecording = (if s.isPlaying then false else s.isRecording) := by
  unfold togglePlay; split_ifs <;> simp [stopPlayback]

@[simp] theorem togglePlay_isPlaying (s : State) (g : Bool) :
    (togglePlay s g).isPlaying = !s.isPlaying := by
  unfold togglePlay; split_ifs with h <;> simp [stopPlayback, h]

@[simp] theorem toggleRecord_isPlaying (s : State) (g : Bool) :
    (toggleRecord s g).isPlaying = (s.isPlaying || !s.isRecording) := by
  unfold toggleRecord; simp only []
  cases hr : s.isRecording <;> cases hp : s.isPlaying <;> simp

/-! ## C5: a press whose recording was switched off -/

/-- While recording is off, an operation other than `toggleRecord` keeps it
off and appends nothing to the Loop Store. -/
theorem step_recording_off (s : State) (op : Op) (hr : s.isRecording = false)
    (hop : op.isToggleRecord = false) :
    (step s op).isRecording = false ∧
      ((step s op).recordedNotes = s.recordedNotes ∨ (step s op).recordedNotes = []) := by
  cases op with
  | toggleRecord g => simp [Op.isToggleRecord] at hop
  | togglePlay g => simp [step, hr]
  | startPlayback g => simp [step, hr]
  | stopPlayback => simp [step, stopPlayback]
  | clearLoop => simp [step, hr]
  | changePreset p => simp [step, changePreset, hr]
  | startAudioContext g => simp [step, hr]
  | playNote note now => simp [step, hr]
  | stopNote note now =>
    exact ⟨by simp [step, hr], Or.inl (stopNote_skip s note now (Or.inl hr)).1⟩

theorem run_recording_off (ops : List Op) (s : State) (hr : s.isRecording = false)
    (hops : ∀ op ∈ ops, op.isToggleRecord = false) :
    (run s ops).isRecording = false ∧
      ((run s ops).recordedNotes = s.recordedNotes ∨ (run s ops).recordedNotes = []) := by
  induction ops generalizing s with
  | nil => exact ⟨hr, Or.inl rfl⟩
  | cons op ops ih =>
    obtain ⟨h1, h2⟩ := step_recording_off s op hr (hops op (List.mem_cons_self _ _))
    obtain ⟨h3, h4⟩ := ih (step s op) h1 (fun o ho => hops o (List.mem_cons_of_mem _ ho))
    refine ⟨h3, ?_⟩
    rcases h4 with h4 | h4
    · rcases h2 with h2 | h2
      · exact Or.inl (h4.trans h2)
      · exact Or.inr (h4.trans h2)
    · exact Or.inr h4

/-- C5 as stated fails: a press made while recording stays in the ActiveNote
map when recording is switched off, and is committed at its release once
recording has been switched on again. -/
theorem C5_stale_press_committed :
    (run init [Op.toggleRecord true, Op.playNote "C4" 1, Op.toggleRecord true]).isRecording = false ∧
      (run init [Op.toggleRecord true, Op.playNote "C4" 1, Op.toggleRecord true]).recordedNotes = [] ∧
      (run init [Op.toggleRecord true, Op.playNote "C4" 1, Op.toggleRecord true,
        Op.toggleRecord true, Op.stopNote "C4" 3]).recordedNotes =
          [{ note := "C4", time := 1, duration := 2, preset := "piano" }] := by
  refine ⟨by decide, by decide, ?_⟩
  have he : jsMod 3 LOOP_DURATION = 3 :=
    jsMod_loop_eq_self (by norm_num) (by norm_num [LOOP_DURATION])
  have hg : (toggleRecord (toggleRecord (playNote (toggleRecord init true) "C4" 1) true)
      true).activeNotes.get "C4" = some 1 := by
    rw [toggleRecord_activeNotes, toggleRecord_activeNotes]
    exact held_get "C4" 1 (by norm_num) (by norm_num [LOOP_DURATION])
  obtain ⟨d, hd, -, -, -, h4⟩ := stopNote_appends _ "C4" 3 1 (by decide) hg
  have hdv : d = 2 := by
    rw [h4 (by rw [he]; norm_num) (by rw [he]; norm_num), he]; norm_num
  show (stopNote (toggleRecord (toggleRecord (playNote (toggleRecord init true) "C4" 1) true)
      true) "C4" 3).recordedNotes = _
  rw [hd, hdv]
  simp [init]

/-- C5 (amended): when a note is pressed while recording and recording is then
switched off (by `toggleRecord` or by `stopPlayback`), no event is appended to
the Loop Store for as long as recording stays off: not at the release, and not
after any later sequence of operations that contains no `toggleRecord`. -/
theorem C5_no_commit_while_recording_off (s : State) (note : String) (now : ℚ) (g : Bool)
    (ops : List Op) (hrec : s.isRecording = true)
    (hops : ∀ op ∈ ops, op.isToggleRecord = false) :
    ∀ s1 ∈ [toggleRecord (playNote s note now) g, stopPlayback (playNote s note now)],
      (run s1 ops).isRecording = false ∧
        ((run s1 ops).recordedNotes = s.recordedNotes ∨ (run s1 ops).recordedNotes = []) := by
  intro s1 hs1
  have hoff : s1.isRecording = false ∧ s1.recordedNotes = s.recordedNotes := by
    rw [List.mem_cons, List.mem_singleton] at hs1
    rcases hs1 with rfl | rfl
    · simp [hrec]
    · simp [stopPlayback]
  obtain ⟨h1, h2⟩ := run_recording_off ops s1 hoff.1 hops
  rw [hoff.2] at h2
  exact ⟨h1, h2⟩

theorem C5_no_commit_while_recording_off_witness :
    (toggleRecord init true).isRecording = true ∧
      (∀ op ∈ [Op.stopNote "C4" 3, Op.playNote "D4" 4, Op.stopNote "D4" 5],
        op.isToggleRecord = false) ∧
      ∀ s1 ∈ [toggleRecord (playNote (toggleRecord init true) "C4" 1) true,
          stopPlayback (playNote (toggleRecord init true) "C4" 1)],
        (run s1 [Op.stopNote "C4" 3, Op.playNote "D4" 4, Op.stopNote "D4" 5]).isRecording = false ∧
          ((run s1 [Op.stopNote "C4" 3, Op.playNote "D4" 4, Op.stopNote "D4" 5]).recordedNotes =
              (toggleRecord init true).recordedNotes ∨
            (run s1 [Op.stopNote "C4" 3, Op.playNote "D4" 4, Op.stopNote "D4" 5]).recordedNotes = []) :=
  ⟨by decide, by decide,
    C5_no_commit_while_recording_off (toggleRecord init true) "C4" 1 true _ (by decide) (by decide)⟩

/-! ## C6: the schedule after a commit -/

/-- C6 (the code at the failing input): after `toggleRecord`, a press and a
release, playback is active and the Loop Store holds one event, but no handle
is registered for it. -/
theorem C6_commit_not_scheduled :
    (run init [Op.toggleRecord true, Op.playNote "C4" 0, Op.stopNote "C4" 1]).isPlaying = true ∧
      (run init [Op.toggleRecord true, Op.playNote "C4" 0, Op.stopNote "C4" 1]).recordedNotes.length = 1 ∧
      (run init [Op.toggleRecord true, Op.playNote "C4" 0, Op.stopNote "C4" 1]).scheduledEvents = [] ∧
      (run init [Op.toggleRecord true, Op.playNote "C4" 0, Op.stopNote "C4" 1]).transport.events = [] := by
  decide

/-! ## C7: recording implies playing -/

theorem step_recording_playing (s : State) (op : Op)
    (hs : s.isRecording = true → s.isPlaying = true) :
    (step s op).isRecording = true → (step s op).isPlaying = true := by
  cases op with
  | toggleRecord g => simp [step]; exact fun h => Or.inr h
  | togglePlay g =>
    cases hp : s.isPlaying <;> simp [step, hp]
  | startPlayback g => simp [step]
  | stopPlayback => simp [step, stopPlayback]
  | clearLoop => simpa [step] using hs
  | changePreset p => simpa [step, changePreset] using hs
  | startAudioContext g => simpa [step] using hs
  | playNote note now => simpa [step] using hs
  | stopNote note now => simpa [step] using hs

/-- C7: in every state reached from the initial state by completed session
operations, `isRecording = true` implies `isPlaying = true`. -/
theorem C7_recording_implies_playing (ops : List Op) :
    (run init ops).isRecording = true → (run init ops).isPlaying = true := by
  have key : ∀ (l : List Op) (s : State), (s.isRecording = true → s.isPlaying = true) →
      ((run s l).isRecording = true → (run s l).isPlaying = true) := by
    intro l
    induction l with
    | nil => intro s hs; exact hs
    | cons op l ih => intro s hs; exact ih (step s op) (step_recording_playing s op hs)
  exact key ops init (by decide)

theorem C7_recording_implies_playing_witness :
    (run init [Op.toggleRecord false, Op.playNote "C4" 1]).isRecording = true ∧
      (run init [Op.toggleRecord false, Op.playNote "C4" 1]).isPlaying = true :=
  ⟨by decide, C7_recording_implies_playing _ (by decide)⟩

/-! ## The transport timeline -/

theorem foldl_clear_events (ids : List Nat) (tr : Transport) :
    (ids.foldl (fun tr id => tr.clear id) tr).events =
      tr.events.filter (fun e => decide (e.id ∉ ids)) := by
  induction ids generalizing tr with
  | nil => simp
  | cons i ids ih =>
    rw [List.foldl_cons, ih]
    simp only [Transport.clear, List.filter_filter]
    congr 1
    funext e
    by_cases h1 : e.id = i <;> by_cases h2 : e.id ∈ ids <;> simp [h1, h2]

theorem clearScheduled_events (s : State) :
    (clearScheduled s).transport.events =
      s.transport.events.filter (fun e => decide (e.id ∉ s.scheduledEvents)) :=
  foldl_clear_events s.scheduledEvents s.transport

theorem clearScheduled_tracked (s : State) (h : Tracked s) :
    (clearScheduled s).transport.events = [] := by
  rw [clearScheduled_events, List.filter_eq_nil_iff]
  intro e he
  have : e.id ∈ s.scheduledEvents := by
    rw [← h]; exact List.mem_map_of_mem _ he
  simpa using this

theorem foldl_scheduleOne_tracked (l : List NoteEvent) (s : State) (h : Tracked s) :
    Tracked (l.foldl scheduleOne s) := by
  induction l generalizing s with
  | nil => exact h
  | cons a l ih =>
    apply ih
    unfold Tracked at h ⊢
    simp [scheduleOne, Transport.schedule, Transport.ids] at h ⊢
    exact h

theorem scheduleLoop_tracked (s : State) (h : Tracked s) : Tracked (scheduleLoop s) := by
  apply foldl_scheduleOne_tracked
  have := clearScheduled_tracked s h
  unfold Tracked Transport.ids
  rw [this]
  rfl

theorem clearLoop_eq (s : State) :
    clearLoop s = clearScheduled { s with recordedNotes := [] } := by
  unfold clearLoop
  simp only []
  split_ifs
  · simp [scheduleLoop, clearScheduled]
  · rfl

theorem playNote_frame (s : State) (note : String) (now : ℚ) :
    ∃ an snd, playNote s note now = { s with activeNotes := an, sound := snd } := by
  obtain ⟨snd, h⟩ := playDrum_frame s note
  unfold playNote; simp only [h]
  split_ifs <;> exact ⟨_, _, rfl⟩

theorem stopNote_frame (s : State) (note : String) (now : ℚ) :
    ∃ rn an snd, stopNote s note now =
      { s with recordedNotes := rn, activeNotes := an, sound := snd } := by
  unfold stopNote; simp only []
  split <;> split_ifs <;> exact ⟨_, _, _, rfl⟩

theorem step_tracked (s : State) (op : Op) (h : Tracked s) : Tracked (step s op) := by
  have hsp : ∀ (t : State) (g : Bool), Tracked t → Tracked (startPlayback t g) := by
    intro t g ht
    have h1 : Tracked (startAudioContext t g) := by
      unfold startAudioContext; split_ifs <;> exact ht
    exact scheduleLoop_tracked
      { startAudioContext t g with
        isPlaying := true
        transport :=
          { (startAudioContext t g).transport with
            loop := true, loopStart := 0, loopEnd := LOOP_DURATION, bpm := BPM } } h1
  cases op with
  | toggleRecord g =>
    simp only [step, toggleRecord]
    split_ifs
    · exact hsp _ g h
    · exact h
  | togglePlay g =>
    simp only [step, togglePlay]
    split_ifs
    · exact h
    · exact hsp _ g h
  | startPlayback g => exact hsp s g h
  | stopPlayback => exact h
  | clearLoop =>
    simp only [step, clearLoop_eq]
    have := clearScheduled_tracked { s with recordedNotes := [] } h
    unfold Tracked Transport.ids
    rw [this]
    rfl
  | changePreset p => exact h
  | startAudioContext g =>
    simp only [step]; unfold startAudioContext; split_ifs <;> exact h
  | playNote note now =>
    obtain ⟨an, snd, e⟩ := playNote_frame s note now
    simp only [step, e]; exact h
  | stopNote note now =>
    obtain ⟨rn, an, snd, e⟩ := stopNote_frame s note now
    simp only [step, e]; exact h

/-- In every state reached from the initial state the tracked handles are the
registrations on the transport timeline. -/
theorem run_tracked (ops : List Op) : Tracked (run init ops) := by
  have key : ∀ (l : List Op) (s : State), Tracked s → Tracked (run s l) := by
    intro l
    induction l with
    | nil => intro s hs; exact hs
    | cons op l ih => intro s hs; exact ih (step s op) (step_tracked s op hs)
  exact key ops init rfl

/-! ## C8: clearing the loop -/

/-- C8: after `clearLoop`, in any state, the Loop Store is empty and no handle
is tracked; every handle tracked before the call is off the transport timeline
and nothing new is registered on it; when the tracked handles were all the
registrations (as in every reachable state), the timeline is empty. -/
theorem C8_clearLoop_empties (s : State) :
    (clearLoop s).recordedNotes = [] ∧
      (clearLoop s).scheduledEvents = [] ∧
      (∀ id ∈ s.scheduledEvents, id ∉ (clearLoop s).transport.ids) ∧
      (∀ id ∈ (clearLoop s).transport.ids, id ∈ s.transport.ids) ∧
      (s.transport.ids = s.scheduledEvents → (clearLoop s).transport.events = []) := by
  have hev : (clearLoop s).transport.events =
      s.transport.events.filter (fun e => decide (e.id ∉ s.scheduledEvents)) := by
    rw [clearLoop_eq]; exact clearScheduled_events _
  refine ⟨clearLoop_recordedNotes s, by rw [clearLoop_eq]; rfl, ?_, ?_, ?_⟩
  · intro id hid hmem
    unfold Transport.ids at hmem
    rw [hev, List.mem_map] at hmem
    obtain ⟨e, he, rfl⟩ := hmem
    have := (List.mem_filter.mp he).2
    simp only [decide_eq_true_eq] at this
    exact this hid
  · intro id hmem
    unfold Transport.ids at hmem ⊢
    rw [hev, List.mem_map] at hmem
    obtain ⟨e, he, rfl⟩ := hmem
    exact List.mem_map_of_mem _ (List.mem_filter.mp he).1
  · intro ht
    rw [clearLoop_eq]
    exact clearScheduled_tracked { s with recordedNotes := [] } ht

theorem C8_clearLoop_empties_witness :
    (run init [Op.toggleRecord true, Op.playNote "C4" 0, Op.stopNote "C4" 1, Op.togglePlay true,
        Op.togglePlay true]).isPlaying = true ∧
      (run init [Op.toggleRecord true, Op.playNote "C4" 0, Op.stopNote "C4" 1, Op.togglePlay true,
        Op.togglePlay true]).scheduledEvents = [0] ∧
      (run init [Op.toggleRecord true, Op.playNote "C4" 0, Op.stopNote "C4" 1, Op.togglePlay true,
        Op.togglePlay true]).transport.ids = [0] ∧
      (clearLoop (run init [Op.toggleRecord true, Op.playNote "C4" 0, Op.stopNote "C4" 1,
        Op.togglePlay true, Op.togglePlay true])).transport.events = [] :=
  ⟨by decide, by decide, by decide, (C8_clearLoop_empties _).2.2.2.2 (by decide)⟩

@[simp] theorem startAudioContext_audioStarted (s : State) (g : Bool) :
    (startAudioContext s g).audioStarted = (s.audioStarted || g) := by
  unfold startAudioContext
  cases ha : s.audioStarted <;> cases g <;> simp [ha]

@[simp] theorem startPlayback_audioStarted (s : State) (g : Bool) :
    (startPlayback s g).audioStarted = (s.audioStarted || g) := by
  simp [startPlayback]

theorem ActiveNotes.has_eq_isSome_get (m : ActiveNotes) (k : String) :
    ActiveNotes.has m k = (ActiveNotes.get m k).isSome := by
  induction m with
  | nil => rfl
  | cons a m ih =>
    by_cases ha : a.1 = k
    · simp [ActiveNotes.has, ActiveNotes.get, ha]
    · have hb : (a.1 == k) = false := by simpa using ha
      simpa [ActiveNotes.has, ActiveNotes.get, hb] using ih

/-! ## C9: one recorded note -/

/-- C9: from an idle state with an empty Loop Store and the audio gate able to
start, `toggleRecord`, a press at loop offset `s`, a release of the same note
at loop offset `e` with `e - s ≥ 0.05`, and `toggleRecord` again leave the Loop
Store holding exactly the event `{note, time: s, duration: e - s, preset:
currentPreset}`. -/
theorem C9_single_note_scenario (st : State) (note : String) (ts te : ℚ) (g g' : Bool)
    (hrec : st.isRecording = false) (hplay : st.isPlaying = false)
    (hempty : st.recordedNotes = []) (hgate : st.audioStarted = true ∨ g = true)
    (hlen : 0.05 ≤ jsMod te LOOP_DURATION - jsMod ts LOOP_DURATION) :
    (run st [Op.toggleRecord g, Op.playNote note ts, Op.stopNote note te,
        Op.toggleRecord g']).recordedNotes =
      [{ note := note, time := jsMod ts LOOP_DURATION,
         duration := jsMod te LOOP_DURATION - jsMod ts LOOP_DURATION,
         preset := st.currentPreset }] := by
  have ha : (toggleRecord st g).audioStarted = true := by
    unfold toggleRecord
    rcases hgate with h | h <;> simp [hrec, hplay, h]
  have hr : (toggleRecord st g).isRecording = true := by simp [hrec]
  have hg := playNote_get_self (toggleRecord st g) note ts ha hr
  obtain ⟨d, hd, -, -, -, h4⟩ := stopNote_appends (playNote (toggleRecord st g) note ts) note te
    (jsMod ts LOOP_DURATION) (by simpa using hr) hg
  have hdv := h4 (by linarith) hlen
  show (toggleRecord (stopNote (playNote (toggleRecord st g) note ts) note te) g').recordedNotes = _
  rw [toggleRecord_recordedNotes, hd, hdv]
  simp [hempty]

theorem C9_single_note_scenario_witness :
    init.isRecording = false ∧ init.isPlaying = false ∧ init.recordedNotes = [] ∧
      (0.05 : ℚ) ≤ jsMod 1 LOOP_DURATION - jsMod 0 LOOP_DURATION ∧
      (run init [Op.toggleRecord true, Op.playNote "C4" 0, Op.stopNote "C4" 1,
        Op.toggleRecord true]).recordedNotes =
        [{ note := "C4", time := 0, duration := 1, preset := "piano" }] := by
  have h0 : jsMod 0 LOOP_DURATION = 0 :=
    jsMod_loop_eq_self (le_refl 0) (by norm_num [LOOP_DURATION])
  have h1 : jsMod 1 LOOP_DURATION = 1 :=
    jsMod_loop_eq_self (by norm_num) (by norm_num [LOOP_DURATION])
  have hlen : (0.05 : ℚ) ≤ jsMod 1 LOOP_DURATION - jsMod 0 LOOP_DURATION := by
    rw [h0, h1]; norm_num
  refine ⟨rfl, rfl, rfl, hlen, ?_⟩
  have h := C9_single_note_scenario init "C4" 0 1 true true rfl rfl rfl (Or.inr rfl) hlen
  rw [h0, h1] at h
  rw [h]
  simp [init]

/-! ## C10: ignorable input -/

/-- C10: `stopNote` leaves the Loop Store as it was when recording is off or
when the note has no ActiveNote entry, and `playNote` while not recording
leaves both the Loop Store and the ActiveNote map as they were. -/
theorem C10_ignorable_input (s : State) (note : String) (now : ℚ) :
    ((s.isRecording = false ∨ s.activeNotes.has note = false) →
        (stopNote s note now).recordedNotes = s.recordedNotes) ∧
      (s.isRecording = false →
        (playNote s note now).recordedNotes = s.recordedNotes ∧
          (playNote s note now).activeNotes = s.activeNotes) := by
  constructor
  · intro h
    refine (stopNote_skip s note now ?_).1
    rcases h with h | h
    · exact Or.inl h
    · right
      rw [ActiveNotes.has_eq_isSome_get] at h
      simpa using h
  · intro h
    refine ⟨playNote_recordedNotes s note now, ?_⟩
    rw [playNote_activeNotes, h]
    simp

theorem C10_ignorable_input_witness :
    (run init [Op.toggleRecord true, Op.playNote "C4" 1, Op.toggleRecord true]).isRecording = false ∧
      (run init [Op.toggleRecord true, Op.playNote "C4" 1, Op.toggleRecord true]).activeNotes.has "C4" = true ∧
      (run init [Op.toggleRecord true]).activeNotes.has "C4" = false ∧
      (stopNote (run init [Op.toggleRecord true, Op.playNote "C4" 1, Op.toggleRecord true]) "C4" 3).recordedNotes =
        (run init [Op.toggleRecord true, Op.playNote "C4" 1, Op.toggleRecord true]).recordedNotes ∧
      (stopNote (run init [Op.toggleRecord true]) "C4" 3).recordedNotes =
        (run init [Op.toggleRecord true]).recordedNotes ∧
      (playNote (run init [Op.toggleRecord true, Op.playNote "C4" 1, Op.toggleRecord true]) "D4" 2).activeNotes =
        (run init [Op.toggleRecord true, Op.playNote "C4" 1, Op.toggleRecord true]).activeNotes :=
  ⟨by decide, by decide, by decide,
    (C10_ignorable_input _ "C4" 3).1 (Or.inl (by decide)),
    (C10_ignorable_input _ "C4" 3).1 (Or.inr (by decide)),
    ((C10_ignorable_input _ "D4" 2).2 (by decide)).2⟩

/-! ## C11: changing the preset -/

/-- C11: `changePreset` has no retroactive effect. After `changePreset` the
Loop Store is the same list of events and only `currentPreset` has changed; an
event carries the value `currentPreset` had when `stopNote` committed it, so a
commit made before the change keeps the old preset and a commit made after it
carries the new one. -/
theorem C11_changePreset_frame (s : State) (preset : String) :
    (changePreset s preset).recordedNotes = s.recordedNotes ∧
      changePreset s preset = { s with currentPreset := preset } ∧
      (∀ (note : String) (now startTime : ℚ), s.isRecording = true →
        s.activeNotes.get note = some startTime →
        ∃ d : ℚ,
          (changePreset (stopNote s note now) preset).recordedNotes = s.recordedNotes ++
            [{ note := note, time := startTime, duration := d, preset := s.currentPreset }] ∧
          (stopNote (changePreset s preset) note now).recordedNotes = s.recordedNotes ++
            [{ note := note, time := startTime, duration := d, preset := preset }]) := by
  refine ⟨rfl, rfl, ?_⟩
  intro note now startTime hr hg
  refine ⟨_, (stopNote_commit s note now startTime hr hg).1, ?_⟩
  exact (stopNote_commit (changePreset s preset) note now startTime hr hg).1

theorem C11_changePreset_frame_witness :
    (playNote (toggleRecord init true) "C4" 1).isRecording = true ∧
      (playNote (toggleRecord init true) "C4" 1).activeNotes.get "C4" = some 1 ∧
      (playNote (toggleRecord init true) "C4" 1).currentPreset = "piano" ∧
      ∃ d : ℚ,
        (changePreset (stopNote (playNote (toggleRecord init true) "C4" 1) "C4" 3)
            "synth").recordedNotes =
          (playNote (toggleRecord init true) "C4" 1).recordedNotes ++
            [{ note := "C4", time := 1, duration := d,
               preset := (playNote (toggleRecord init true) "C4" 1).currentPreset }] ∧
        (stopNote (changePreset (playNote (toggleRecord init true) "C4" 1) "synth")
            "C4" 3).recordedNotes =
          (playNote (toggleRecord init true) "C4" 1).recordedNotes ++
            [{ note := "C4", time := 1, duration := d, preset := "synth" }] :=
  ⟨by decide, held_get "C4" 1 (by norm_num) (by norm_num [LOOP_DURATION]), by decide,
    (C11_changePreset_frame (playNote (toggleRecord init true) "C4" 1) "synth").2.2 "C4" 3 1
      (by decide) (held_get "C4" 1 (by norm_num) (by norm_num [LOOP_DURATION]))⟩

end MidiLooper
